import Mathlib

/-!
Verification development for the Notepad4 Scala and Zig lexers
(src/scintilla/lexers/LexScala.cxx and src/scintilla/lexers/LexZig.cxx).

The two lexer translation units are embedded shallowly: the main scan loop of
each ColouriseXxxDoc function becomes an executable step function on an
explicit cursor-context record, styling is modelled as a list of flushed
style runs (mirroring StyleContext.SetState / ColourTo semantics), and the
per-line fold pass FoldZigDoc becomes a per-line level computation.

Code of the repository that is not under src/ (the SciLexer.h style value
table, CharacterSet.h classifiers, StyleContext.h cursor operations,
LexerUtils.h helpers) is modelled from the specification; each such
definition carries a doc comment saying so.  Buffers are ASCII character
lists; a read past the end of the buffer yields the NUL character, matching
the accessor convention of returning 0 outside the document.
-/

set_option maxRecDepth 8192
set_option maxHeartbeats 2000000

/-! ### Character classifiers -/

def NUL : Char := Char.ofNat 0

/-- Modelled from the spec: CharacterClassifier pure predicate for line-end
characters (CharacterSet.h is outside src). -/
def IsEOLChar (c : Char) : Bool := c = '\n' || c = '\r'

/-- Modelled from the spec: CharacterClassifier digit predicate. -/
def IsADigit (c : Char) : Bool := '0' ≤ c && c ≤ '9'

/-- Modelled from the spec: CharacterClassifier hex-digit predicate. -/
def IsHexDigit (c : Char) : Bool :=
  IsADigit c || ('a' ≤ c && c ≤ 'f') || ('A' ≤ c && c ≤ 'F')

/-- Modelled from the spec: CharacterClassifier letter predicate. -/
def IsAlpha (c : Char) : Bool := ('a' ≤ c && c ≤ 'z') || ('A' ≤ c && c ≤ 'Z')

/-- Modelled from the spec: CharacterClassifier identifier-start predicate;
the Ex variants additionally accept non-ASCII codepoints. -/
def IsIdentifierStartEx (c : Char) : Bool := IsAlpha c || c = '_' || c.toNat ≥ 0x80

/-- Modelled from the spec: CharacterClassifier identifier-continue predicate. -/
def IsIdentifierCharEx (c : Char) : Bool := IsIdentifierStartEx c || IsADigit c

/-- Modelled from the spec: CharacterClassifier whitespace predicates. -/
def IsASpaceOrTab (c : Char) : Bool := c = ' ' || c = '\t'

/-- Modelled from the spec: CharacterClassifier whitespace predicate
(space, tab, and the C locale control whitespace). -/
def isspacechar (c : Char) : Bool :=
  c = ' ' || c = '\t' || c = '\n' || c.toNat = 11 || c.toNat = 12 || c = '\r'

/-- Modelled from the spec: CharacterClassifier "graphic" (operator-eligible)
predicate: printable ASCII other than space. -/
def IsAGraphic (c : Char) : Bool := 32 < c.toNat && c.toNat < 127

/-- Modelled from the spec: number-start classifier used by the entry
dispatch (LexerUtils.h is outside src): a digit, or a dot followed by one. -/
def IsNumberStart (c cNext : Char) : Bool := IsADigit c || (c = '.' && IsADigit cNext)

/-- Modelled from the spec: number-continuation classifier (LexerUtils.h is
outside src): identifier characters, a non-doubled dot, and an exponent
sign after an exponent letter. -/
def IsDecimalNumber (cPrev c cNext : Char) : Bool :=
  IsIdentifierCharEx c || (c = '.' && cNext ≠ '.')
  || ((c = '+' || c = '-') && (cPrev = 'e' || cPrev = 'E' || cPrev = 'p' || cPrev = 'P'))

/-- Modelled from the spec: doc-tag context predicate (LexerUtils.h is
outside src): a doc tag is introduced after whitespace or comment
punctuation. -/
def IsCommentTagPrev (c : Char) : Bool := c.toNat ≤ 32 || c = '*' || c = '/'

/-! ### Style constants

Modelled from the spec: the numeric style values come from SciLexer.h which
is outside src; the assignment below satisfies every ordering constraint the
two lexers rely on (IsSpaceEquiv bounded by the task-marker style,
IsSingleLineString bounded by the interpolated-string style, the quote
selection order of GetStringQuote, the FollowExpression style interval, and
the fixed distance between plain and triple string styles asserted by the
static_assert in LexScala.cxx). -/

def SCE_SCALA_DEFAULT : Nat := 0
def SCE_SCALA_COMMENTLINE : Nat := 1
def SCE_SCALA_COMMENTBLOCK : Nat := 2
def SCE_SCALA_COMMENTBLOCKDOC : Nat := 3
def SCE_SCALA_COMMENTTAG : Nat := 4
def SCE_SCALA_TASKMARKER : Nat := 5
def SCE_SCALA_ESCAPECHAR : Nat := 6
def SCE_SCALA_BACKTICKS : Nat := 7
def SCE_SCALA_CHARACTER : Nat := 8
def SCE_SCALA_XML_STRING_SQ : Nat := 9
def SCE_SCALA_XML_STRING_DQ : Nat := 10
def SCE_SCALA_STRING : Nat := 11
def SCE_SCALA_INTERPOLATED_STRING : Nat := 12
def SCE_SCALA_TRIPLE_STRING : Nat := 13
def SCE_SCALA_TRIPLE_INTERPOLATED_STRING : Nat := 14
def SCE_SCALA_OPERATOR_PF : Nat := 15
def SCE_SCALA_NUMBER : Nat := 16
def SCE_SCALA_IDENTIFIER : Nat := 17
def SCE_SCALA_WORD : Nat := 18
def SCE_SCALA_ANNOTATION : Nat := 19
def SCE_SCALA_CLASS : Nat := 20
def SCE_SCALA_TRAIT : Nat := 21
def SCE_SCALA_ENUM : Nat := 22
def SCE_SCALA_FUNCTION : Nat := 23
def SCE_SCALA_FUNCTION_DEFINITION : Nat := 24
def SCE_SCALA_SYMBOL : Nat := 25
def SCE_SCALA_OPERATOR : Nat := 26
def SCE_SCALA_OPERATOR2 : Nat := 27
def SCE_SCALA_XML_TAG : Nat := 28
def SCE_SCALA_XML_ATTRIBUTE : Nat := 29
def SCE_SCALA_XML_TEXT : Nat := 30
def SCE_SCALA_XML_OTHER : Nat := 31

def SCE_ZIG_DEFAULT : Nat := 0
def SCE_ZIG_COMMENTLINE : Nat := 1
def SCE_ZIG_COMMENTLINEDOC : Nat := 2
def SCE_ZIG_COMMENTLINETOP : Nat := 3
def SCE_ZIG_TASKMARKER : Nat := 4
def SCE_ZIG_ESCAPECHAR : Nat := 5
def SCE_ZIG_CHARACTER : Nat := 6
def SCE_ZIG_STRING : Nat := 7
def SCE_ZIG_MULTISTRING : Nat := 8
def SCE_ZIG_PLACEHOLDER : Nat := 9
def SCE_ZIG_FORMAT_SPECIFIER : Nat := 10
def SCE_ZIG_NUMBER : Nat := 11
def SCE_ZIG_IDENTIFIER : Nat := 12
def SCE_ZIG_BUILTIN_FUNCTION : Nat := 13
def SCE_ZIG_WORD : Nat := 14
def SCE_ZIG_TYPE : Nat := 15
def SCE_ZIG_FUNCTION : Nat := 16
def SCE_ZIG_FUNCTION_DEFINITION : Nat := 17
def SCE_ZIG_OPERATOR : Nat := 18

/-! ### Scala style predicates (LexScala.cxx lines 74-104) -/

def IsSingleLineString (state : Nat) : Bool := state ≤ SCE_SCALA_INTERPOLATED_STRING

def GetStringQuote (state : Nat) : Char :=
  if state = SCE_SCALA_BACKTICKS then '`'
  else if state < SCE_SCALA_XML_STRING_DQ then '\'' else '"'

def IsTripleString (state : Nat) : Bool :=
  state = SCE_SCALA_TRIPLE_STRING || state = SCE_SCALA_TRIPLE_INTERPOLATED_STRING

def IsInterpolatedString (state : Nat) : Bool :=
  state = SCE_SCALA_INTERPOLATED_STRING || state = SCE_SCALA_TRIPLE_INTERPOLATED_STRING

def IsSpaceEquiv (state : Nat) : Bool := state ≤ SCE_SCALA_TASKMARKER

def IsScalaIdentifierStart (c : Char) : Bool := IsIdentifierStartEx c || c = '$'

def IsScalaIdentifierChar (c : Char) : Bool := IsIdentifierCharEx c || c = '$'

def FollowExpression (chPrevNonWhite : Char) (stylePrevNonWhite : Nat) : Bool :=
  chPrevNonWhite = ')' || chPrevNonWhite = ']'
  || (SCE_SCALA_OPERATOR_PF ≤ stylePrevNonWhite && stylePrevNonWhite ≤ SCE_SCALA_IDENTIFIER)
  || IsScalaIdentifierChar chPrevNonWhite

def IsXmlTagStartP (chPrev chNext : Char) (chPrevNonWhite : Char) (stylePrevNonWhite : Nat) : Bool :=
  ((chPrev = '(' || chPrev = '{')
    || (chPrev.toNat ≤ 32
        && (stylePrevNonWhite = SCE_SCALA_XML_TAG || stylePrevNonWhite = SCE_SCALA_WORD
            || !FollowExpression chPrevNonWhite stylePrevNonWhite)))
  && (IsScalaIdentifierChar chNext || chNext = '!' || chNext = '?')

/-! ### Zig format helpers (LexZig.cxx lines 56-84) -/

def IsBraceFormatSpecifier (c : Char) : Bool :=
  c = 'b' || c = 'c' || c = 'd' || c = 'e' || c = 'f' || c = 'g' || c = 'o'
  || c = 's' || c = 'u' || c = 'x' || c = 'X' || c = '?' || c = '!' || c = '*' || c = 'a'

def IsBraceFormatNext (c : Char) : Bool :=
  c = '}' || IsADigit c || c = '[' || c = ':' || c = '.' || IsBraceFormatSpecifier c

def IsZigSpaceEquiv (state : Nat) : Bool := state ≤ SCE_ZIG_TASKMARKER

/-- FormatArgument enum of LexZig.cxx (None, Digit, Identifier, Error)
represented as 0, 1, 2, 3. -/
def fmtNone : Nat := 0
def fmtDigit : Nat := 1
def fmtIdentifier : Nat := 2
def fmtError : Nat := 3

def IsFormatArgument (c : Char) (fmtArgument : Nat) : Bool :=
  IsADigit c || (fmtArgument = fmtIdentifier && IsIdentifierCharEx c)

/-! ### Line-state flag bits

Modelled from the spec: the PyLineState flag constants live in LexerUtils.h
which is outside src; the spec requires them to be distinct continuation
flag bits in the low byte of the per-line integer, below the
comment-nesting-depth byte and the indent-width field. -/

def PyLineStateMaskEmptyLine : Nat := 1
def PyLineStateMaskCommentLine : Nat := 2
def PyLineStateMaskTripleQuote : Nat := 4
def PyLineStateMaskCloseBrace : Nat := 8
def PyLineStateStringInterpolation : Nat := 16

def ZigLineStateMaskLineComment : Nat := 1
def ZigLineStateMaskMultilineString : Nat := 2

/-! ### Buffer access and cursor predicates

Modelled from the spec: TokenizerCore holds one character of lookbehind and
up to two of lookahead over a random-access buffer; reads outside the
buffer yield NUL (the accessor returns 0 outside the document). -/

def chAt (doc : List Char) (p : Nat) : Char := doc.getD p NUL

def chPrevAt (doc : List Char) (p : Nat) : Char :=
  if p = 0 then NUL else chAt doc (p - 1)

/-- A position is at a line start when it is the document start or directly
follows a line end (a LF, or a CR not part of a CR LF pair). -/
def atLineStartB (doc : List Char) (p : Nat) : Bool :=
  p = 0 || chPrevAt doc p = '\n' || (chPrevAt doc p = '\r' && chAt doc p ≠ '\n')

/-- A position is at a line end when it holds the last character of a line
(a LF, or a CR not followed by LF) or is the last position of the scanned
range. -/
def atLineEndB (doc : List Char) (endPos p : Nat) : Bool :=
  chAt doc p = '\n' || (chAt doc p = '\r' && chAt doc (p + 1) ≠ '\n') || p + 1 = endPos

/-- Modelled from the spec: the bounded forward peek GetLineNextChar returns
the next visible character on the current line, skipping spaces and tabs,
and a NUL sentinel at the line end or the end of the scanned range. -/
def getLineNextCharAux (doc : List Char) : Nat → Nat → Char
  | 0, _ => NUL
  | fuel + 1, p =>
    let c := chAt doc p
    if c = ' ' || c = '\t' then getLineNextCharAux doc fuel (p + 1)
    else if c = '\n' || c = '\r' then NUL
    else c

def getLineNextChar (doc : List Char) (endPos p : Nat) : Char :=
  getLineNextCharAux doc (endPos - p) p

/-! ### The shared cursor context

One record holds the scan-local state of both lexers (the union of the
local variables of ColouriseScalaDoc and ColouriseZigDoc together with the
StyleContext cursor); each step function reads and writes only the fields
its source function uses.  Styling follows StyleContext semantics: a
pending run starts at segStart with style state, and SetState flushes it as
a (start, stop, style) triple. -/

structure LexCtx where
  pos : Nat
  state : Nat
  segStart : Nat
  runs : List (Nat × Nat × Nat)
  lineState : Nat
  lineStates : List Nat
  visibleChars : Nat
  visibleCharsBefore : Nat
  indentCount : Nat
  commentLevel : Int
  nestedState : List Nat
  xmlTagLevel : Int
  kwType : Nat
  chBefore : Char
  chPrevNonWhite : Char
  stylePrevNonWhite : Nat
  escOuter : Nat
  escDigits : Int
  escBrace : Bool
  fmtArgument : Nat
deriving Repr, DecidableEq

/-- The initial cursor context: every counter cleared, the automaton in the
given initial style, the escape tracker in its default-constructed state. -/
def initCtx (startPos initStyle : Nat) : LexCtx where
  pos := startPos
  state := initStyle
  segStart := startPos
  runs := []
  lineState := 0
  lineStates := []
  visibleChars := 0
  visibleCharsBefore := 0
  indentCount := 0
  commentLevel := 0
  nestedState := []
  xmlTagLevel := 0
  kwType := 0
  chBefore := NUL
  chPrevNonWhite := NUL
  stylePrevNonWhite := 0
  escOuter := 0
  escDigits := 0
  escBrace := false
  fmtArgument := 0

/-! ### StyleContext primitive operations

Modelled from the spec: StyleContext.h is outside src.  SetState flushes
the pending run up to (but excluding) the current position and starts a new
one; ChangeState retroactively changes the pending style; Forward advances
one position, clamped to the end of the scanned range; Rewind steps one
position back. -/

def flushRun (c : LexCtx) : LexCtx :=
  if c.segStart < c.pos then
    { c with runs := c.runs ++ [(c.segStart, c.pos, c.state)] }
  else c

def setState (c : LexCtx) (s : Nat) : LexCtx :=
  let c := flushRun c
  { c with state := s, segStart := c.pos }

def changeState (c : LexCtx) (s : Nat) : LexCtx := { c with state := s }

def forward (endPos : Nat) (c : LexCtx) : LexCtx :=
  if c.pos < endPos then { c with pos := c.pos + 1 } else c

def forwardSetState (endPos : Nat) (c : LexCtx) (s : Nat) : LexCtx :=
  setState (forward endPos c) s

def rewind (c : LexCtx) : LexCtx := { c with pos := c.pos - 1 }

def advanceN (endPos : Nat) : Nat → LexCtx → LexCtx
  | 0, c => c
  | n + 1, c => advanceN endPos n (forward endPos c)

/-- StyleContext.Complete: flush the final pending run. -/
def complete (c : LexCtx) : LexCtx := flushRun c

/-- The trailing SetLineState block is shared in shape by both lexers; the
per-line integers accumulate in line order. -/
def pushLineState (c : LexCtx) (ls : Nat) : LexCtx :=
  { c with lineStates := c.lineStates ++ [ls] }

/-- The style recorded for a buffer position by the flushed runs. -/
def styleAt (runs : List (Nat × Nat × Nat)) (p : Nat) : Nat :=
  match runs.find? (fun r => r.1 ≤ p && p < r.2.1) with
  | some r => r.2.2
  | none => 0

/-- Control flow of one loop iteration: cont models the C continue
statement (back to the loop head, skipping the shared trailing block),
next falls through to the default-entry dispatch and the trailing block. -/
inductive LexFlow where
  | cont : LexCtx → LexFlow
  | next : LexCtx → LexFlow
deriving Repr

/-- The context carried by either control-flow constructor. -/
def flowCtx : LexFlow → LexCtx
  | .cont c => c
  | .next c => c

/-- Whether a control-flow value is the continue form. -/
def isCont : LexFlow → Bool
  | .cont _ => true
  | .next _ => false

/-! ### LexScala.cxx: the case arms of the main scan loop -/

/-- LexScala.cxx lines 176-194: keyword-specific pending-category logic. -/
def scalaKeywordKwType (doc : List Char) (endPos : Nat) (s : String) (c : LexCtx) : LexCtx :=
  let c := { c with kwType := 0 }
  let c :=
    if s = "class" ∨ s = "new" ∨ s = "extends" ∨ s = "throws" ∨ s = "object" then
      { c with kwType := SCE_SCALA_CLASS }
    else if s = "trait" ∨ s = "with" then { c with kwType := SCE_SCALA_TRAIT }
    else if s = "def" then { c with kwType := SCE_SCALA_FUNCTION_DEFINITION }
    else if s = "enum" then { c with kwType := SCE_SCALA_ENUM }
    else if s = "return" ∨ s = "yield" then { c with kwType := 64 }
    else if c.visibleChars = 3 ∧ s = "end" then
      { c with lineState := c.lineState ||| PyLineStateMaskCloseBrace }
    else c
  if 0 < c.kwType ∧ c.kwType < 64 then
    if ¬ IsIdentifierStartEx (getLineNextChar doc endPos c.pos) then { c with kwType := 0 }
    else c
  else c

/-- LexScala.cxx lines 170-218: classification of a completed identifier
run (keyword table, class and trait name lists, pending-category flag, and
the function definition or reference heuristic). -/
def scalaClassifyIdent (doc : List Char) (endPos : Nat)
    (kwK kwC kwT : List String) (c : LexCtx) : LexCtx :=
  let s := String.mk (((doc.drop c.segStart).take (c.pos - c.segStart)).take 127)
  let ch := chAt doc c.pos
  let c :=
    if kwK.contains s then
      scalaKeywordKwType doc endPos s (changeState c SCE_SCALA_WORD)
    else if kwC.contains s then changeState c SCE_SCALA_CLASS
    else if kwT.contains s then changeState c SCE_SCALA_TRAIT
    else if ch ≠ '.' then
      if 0 < c.kwType ∧ c.kwType < 64 then changeState c c.kwType
      else
        let chNext := getLineNextChar doc endPos c.pos
        if chNext = '(' then
          if c.kwType ≠ 64 ∧ (IsIdentifierCharEx c.chBefore ∨ c.chBefore = ']') then
            changeState c SCE_SCALA_FUNCTION_DEFINITION
          else changeState c SCE_SCALA_FUNCTION
        else c
    else c
  let c := { c with stylePrevNonWhite := c.state }
  if c.state ≠ SCE_SCALA_WORD ∧ ch ≠ '.' then { c with kwType := 0 } else c

/-- LexScala.cxx lines 157-227: the identifier-family case arm
(IDENTIFIER, ANNOTATION, SYMBOL, XML_TAG, XML_ATTRIBUTE). -/
def scalaCaseIdent (doc : List Char) (endPos : Nat)
    (kwK kwC kwT : List String) (c : LexCtx) : LexFlow :=
  let isXml := c.state = SCE_SCALA_XML_TAG ∨ c.state = SCE_SCALA_XML_ATTRIBUTE
  let c :=
    if (chAt doc c.pos = '.' ∧ ¬ (c.state = SCE_SCALA_IDENTIFIER ∨ c.state = SCE_SCALA_SYMBOL))
        ∨ (chAt doc c.pos = ':' ∧ isXml) then
      let st := c.state
      forwardSetState endPos (setState c SCE_SCALA_OPERATOR2) st
    else c
  let ch := chAt doc c.pos
  if ¬ IsScalaIdentifierChar ch ∧ ¬ (ch = '-' ∧ isXml) then
    if c.state = SCE_SCALA_IDENTIFIER then
      if c.escOuter = SCE_SCALA_DEFAULT then
        let c := scalaClassifyIdent doc endPos kwK kwC kwT c
        .cont (setState c SCE_SCALA_DEFAULT)
      else .cont (setState c c.escOuter)
    else
      .cont (setState c (if isXml then SCE_SCALA_XML_OTHER else SCE_SCALA_DEFAULT))
  else .next c

/-- LexScala.cxx lines 237-259: the block-comment case arm; the task-marker
helper of LexerUtils.h is outside src and absent from the spec, so it is
modelled as never matching. -/
def scalaCaseCommentBlock (doc : List Char) (endPos : Nat) (c : LexCtx) : LexFlow :=
  let c :=
    if atLineStartB doc c.pos then { c with lineState := PyLineStateMaskCommentLine } else c
  let ch := chAt doc c.pos
  let chN := chAt doc (c.pos + 1)
  if ch = '*' ∧ chN = '/' then
    let c := forward endPos c
    let c := { c with commentLevel := c.commentLevel - 1 }
    if c.commentLevel = 0 then
      let c := forwardSetState endPos c SCE_SCALA_DEFAULT
      let c :=
        if c.lineState = PyLineStateMaskCommentLine ∧ getLineNextChar doc endPos c.pos ≠ NUL then
          { c with lineState := 0 }
        else c
      .next c
    else .next c
  else if ch = '/' ∧ chN = '*' then
    .next (forward endPos { c with commentLevel := c.commentLevel + 1 })
  else if c.state = SCE_SCALA_COMMENTBLOCKDOC ∧ ch = '@' ∧ IsAlpha chN
      ∧ IsCommentTagPrev (chPrevAt doc c.pos) then
    .next (setState c SCE_SCALA_COMMENTTAG)
  else .next c

/-- LexScala.cxx line 303: the while loop consuming surplus quote
characters before a triple-quote close (all but the final three are string
content); fuelled by the remaining range so it never leaves it. -/
def skipQuotesAux (doc : List Char) : Nat → Nat → Nat
  | 0, p => p
  | fuel + 1, p => if chAt doc (p + 1) = '"' then skipQuotesAux doc fuel (p + 1) else p

/-- LexScala.cxx lines 268-310: the string-family case arm (backticks,
character, XML attribute strings, plain, interpolated and triple strings). -/
def scalaCaseString (doc : List Char) (endPos : Nat) (c : LexCtx) : LexFlow :=
  let ch := chAt doc c.pos
  let chN := chAt doc (c.pos + 1)
  if atLineStartB doc c.pos ∧ IsSingleLineString c.state then
    .next (setState c SCE_SCALA_DEFAULT)
  else if ch = '\\' then
    if IsEOLChar chN then .next c
    else
      let c := { c with escOuter := c.state, escDigits := if chN = 'u' then 5 else 1 }
      let c := forward endPos (setState c SCE_SCALA_ESCAPECHAR)
      let c :=
        if IsInterpolatedString c.state ∧ chAt doc c.pos = '$' ∧ chAt doc (c.pos + 1) = '"' then
          forward endPos c
        else c
      .next c
  else if ch = '$' ∧ IsInterpolatedString c.state then
    if chN = '$' then
      let c := { c with escOuter := c.state, escDigits := 1 }
      .next (forward endPos (setState c SCE_SCALA_ESCAPECHAR))
    else if chN = '{' then
      let c := { c with nestedState := c.state :: c.nestedState }
      .next (forward endPos (setState c SCE_SCALA_OPERATOR2))
    else if IsScalaIdentifierStart chN then
      .next (setState { c with escOuter := c.state } SCE_SCALA_IDENTIFIER)
    else .next c
  else if ch = GetStringQuote c.state
      ∧ (IsSingleLineString c.state ∨ (chN = '"' ∧ chAt doc (c.pos + 2) = '"')) then
    let target :=
      if c.state = SCE_SCALA_XML_STRING_SQ ∨ c.state = SCE_SCALA_XML_STRING_DQ then
        SCE_SCALA_XML_OTHER
      else SCE_SCALA_DEFAULT
    let c :=
      if ¬ IsSingleLineString c.state then
        { c with pos := skipQuotesAux doc (endPos - c.pos) c.pos }
      else c
    .cont (forwardSetState endPos c target)
  else .next c

/-- LexScala.cxx lines 319-351: the markup (XML text and tag-interior) case
arm. -/
def scalaCaseXml (doc : List Char) (endPos : Nat) (c : LexCtx) : LexFlow :=
  let ch := chAt doc c.pos
  let chN := chAt doc (c.pos + 1)
  if ch = '>' ∨ (ch = '/' ∧ chN = '>') then
    let c := setState c SCE_SCALA_XML_TAG
    let c := if ch = '/' then forward endPos { c with xmlTagLevel := c.xmlTagLevel - 1 } else c
    let c := { c with chPrevNonWhite := '>', stylePrevNonWhite := SCE_SCALA_XML_TAG }
    .cont (forwardSetState endPos c
      (if c.xmlTagLevel = 0 then SCE_SCALA_DEFAULT else SCE_SCALA_XML_TEXT))
  else if ch = '=' ∧ c.state = SCE_SCALA_XML_OTHER then
    .cont (forwardSetState endPos (setState c SCE_SCALA_OPERATOR2) SCE_SCALA_XML_OTHER)
  else if (ch = '\'' ∨ ch = '"') ∧ c.state = SCE_SCALA_XML_OTHER then
    .next (setState c (if ch = '\'' then SCE_SCALA_XML_STRING_SQ else SCE_SCALA_XML_STRING_DQ))
  else if c.state = SCE_SCALA_XML_OTHER ∧ IsScalaIdentifierStart ch then
    .next (setState c SCE_SCALA_XML_ATTRIBUTE)
  else if ch = '{' then
    .next (setState { c with nestedState := c.state :: c.nestedState } SCE_SCALA_OPERATOR2)
  else if ch = '<' ∧ chN = '/' then
    .next (forward endPos (setState { c with xmlTagLevel := c.xmlTagLevel - 1 } SCE_SCALA_XML_TAG))
  else if ch = '<' then
    .next (setState { c with xmlTagLevel := c.xmlTagLevel + 1 } SCE_SCALA_XML_TAG)
  else .next c

/-- LexScala.cxx lines 144-352: the switch on the current automaton state. -/
def scalaCaseArm (doc : List Char) (endPos : Nat)
    (kwK kwC kwT : List String) (c : LexCtx) : LexFlow :=
  let ch := chAt doc c.pos
  if c.state = SCE_SCALA_OPERATOR ∨ c.state = SCE_SCALA_OPERATOR2
      ∨ c.state = SCE_SCALA_OPERATOR_PF then
    .next (setState c SCE_SCALA_DEFAULT)
  else if c.state = SCE_SCALA_NUMBER then
    if ¬ IsDecimalNumber (chPrevAt doc c.pos) ch (chAt doc (c.pos + 1)) then
      .next (setState c SCE_SCALA_DEFAULT)
    else .next c
  else if c.state = SCE_SCALA_IDENTIFIER ∨ c.state = SCE_SCALA_ANNOTATION
      ∨ c.state = SCE_SCALA_SYMBOL ∨ c.state = SCE_SCALA_XML_TAG
      ∨ c.state = SCE_SCALA_XML_ATTRIBUTE then
    scalaCaseIdent doc endPos kwK kwC kwT c
  else if c.state = SCE_SCALA_COMMENTLINE then
    if atLineStartB doc c.pos then .next (setState c SCE_SCALA_DEFAULT) else .next c
  else if c.state = SCE_SCALA_COMMENTBLOCK ∨ c.state = SCE_SCALA_COMMENTBLOCKDOC then
    scalaCaseCommentBlock doc endPos c
  else if c.state = SCE_SCALA_COMMENTTAG then
    if ¬ IsAlpha ch then .cont (setState c SCE_SCALA_COMMENTBLOCKDOC) else .next c
  else if c.state = SCE_SCALA_BACKTICKS ∨ c.state = SCE_SCALA_CHARACTER
      ∨ c.state = SCE_SCALA_XML_STRING_SQ ∨ c.state = SCE_SCALA_XML_STRING_DQ
      ∨ c.state = SCE_SCALA_STRING ∨ c.state = SCE_SCALA_INTERPOLATED_STRING
      ∨ c.state = SCE_SCALA_TRIPLE_STRING ∨ c.state = SCE_SCALA_TRIPLE_INTERPOLATED_STRING then
    scalaCaseString doc endPos c
  else if c.state = SCE_SCALA_ESCAPECHAR then
    let d := c.escDigits - 1
    let c := { c with escDigits := d }
    if d ≤ 0 ∨ ¬ IsHexDigit ch then .cont (setState c c.escOuter) else .next c
  else if c.state = SCE_SCALA_XML_TEXT ∨ c.state = SCE_SCALA_XML_OTHER then
    scalaCaseXml doc endPos c
  else .next c

/-- LexScala.cxx lines 412-429: the graphic-character tail of the entry
dispatch (operator classification, postfix operators, and the shared
brace-nesting mechanism of the context stack). -/
def scalaEntryGraphic (doc : List Char) (endPos : Nat) (c : LexCtx) : LexFlow :=
  let ch := chAt doc c.pos
  let c := setState c SCE_SCALA_OPERATOR
  if (ch = '+' ∨ ch = '-') ∧ ch = chAt doc (c.pos + 1) then
    .next (forward endPos (changeState c SCE_SCALA_OPERATOR_PF))
  else if c.nestedState ≠ [] then
    let c := changeState c SCE_SCALA_OPERATOR2
    if ch = '{' then .next { c with nestedState := SCE_SCALA_DEFAULT :: c.nestedState }
    else if ch = '}' then
      match c.nestedState with
      | outer :: rest => .cont (forwardSetState endPos { c with nestedState := rest } outer)
      | [] => .next c
    else .next c
  else if c.visibleChars = 0 ∧ (ch = '}' ∨ ch = ']' ∨ ch = ')') then
    .next { c with lineState := c.lineState ||| PyLineStateMaskCloseBrace }
  else .next c

/-- LexScala.cxx lines 354-430: the default-state entry dispatch. -/
def scalaEntry (doc : List Char) (endPos : Nat) (c : LexCtx) : LexFlow :=
  let ch := chAt doc c.pos
  let chN := chAt doc (c.pos + 1)
  if ch = '/' ∧ chN = '/' then
    let c := if c.visibleChars = 0 then { c with lineState := PyLineStateMaskCommentLine } else c
    .next (setState { c with visibleCharsBefore := c.visibleChars } SCE_SCALA_COMMENTLINE)
  else if ch = '/' ∧ chN = '*' then
    let c := { c with commentLevel := 1, visibleCharsBefore := c.visibleChars }
    let c := if c.visibleChars = 0 then { c with lineState := PyLineStateMaskCommentLine } else c
    let c := forward endPos (forward endPos (setState c SCE_SCALA_COMMENTBLOCK))
    let c :=
      if chAt doc c.pos = '*' ∧ chAt doc (c.pos + 1) ≠ '*' then
        changeState c SCE_SCALA_COMMENTBLOCKDOC
      else c
    .cont c
  else if ch = '"' then
    let interpolated :=
      c.stylePrevNonWhite ≠ SCE_SCALA_NUMBER ∧ IsScalaIdentifierChar (chPrevAt doc c.pos)
    let c := setState c (if interpolated then SCE_SCALA_INTERPOLATED_STRING else SCE_SCALA_STRING)
    let c :=
      if chN = '"' ∧ chAt doc (c.pos + 2) = '"' then
        advanceN endPos 2 (setState c (c.state + SCE_SCALA_TRIPLE_STRING - SCE_SCALA_STRING))
      else c
    .next c
  else if ch = '\'' then
    let st :=
      if chN = '{' ∨ IsScalaIdentifierStart chN then
        if chAt doc (c.pos + 2) ≠ '\'' then
          if chN = '{' then SCE_SCALA_OPERATOR else SCE_SCALA_SYMBOL
        else SCE_SCALA_CHARACTER
      else SCE_SCALA_CHARACTER
    .next (setState c st)
  else if ch = '<' then
    if chN = '/' then
      .next (forward endPos (setState { c with xmlTagLevel := c.xmlTagLevel - 1 } SCE_SCALA_XML_TAG))
    else if IsXmlTagStartP (chPrevAt doc c.pos) chN c.chPrevNonWhite c.stylePrevNonWhite then
      .next (setState { c with xmlTagLevel := c.xmlTagLevel + 1 } SCE_SCALA_XML_TAG)
    else .next (setState c SCE_SCALA_OPERATOR)
  else if ch = '`' then .next (setState c SCE_SCALA_BACKTICKS)
  else if IsNumberStart ch chN then .next (setState c SCE_SCALA_NUMBER)
  else if IsScalaIdentifierStart ch then
    .next (setState { c with escOuter := SCE_SCALA_DEFAULT, chBefore := c.chPrevNonWhite }
      SCE_SCALA_IDENTIFIER)
  else if ch = '@' ∧ IsScalaIdentifierStart chN then .next (setState c SCE_SCALA_ANNOTATION)
  else if IsAGraphic ch then scalaEntryGraphic doc endPos c
  else .next c

/-- LexScala.cxx lines 442-457: the line-end LineState commit. -/
def scalaLineEndBlock (c : LexCtx) : LexCtx :=
  let ls :=
    if c.nestedState ≠ [] ∨ c.xmlTagLevel ≠ 0 then
      PyLineStateStringInterpolation ||| PyLineStateMaskTripleQuote
    else if IsTripleString c.state then PyLineStateMaskTripleQuote
    else if c.lineState = 0 ∧ c.visibleChars = 0 then PyLineStateMaskEmptyLine
    else c.lineState
  let ls := ls ||| (c.commentLevel.toNat <<< 8) ||| (c.indentCount <<< 16)
  { pushLineState c ls with
    lineState := 0, indentCount := 0, visibleChars := 0, visibleCharsBefore := 0, kwType := 0 }

/-- LexScala.cxx lines 432-458: the shared trailing block of one iteration
(indent counting, visible-character and lookbehind bookkeeping, the
line-end commit, and the final Forward). -/
def scalaFinish (doc : List Char) (endPos : Nat) (c : LexCtx) : LexCtx :=
  let ch := chAt doc c.pos
  let c :=
    if c.visibleChars = 0 ∧ IsASpaceOrTab ch then { c with indentCount := c.indentCount + 1 }
    else c
  let c :=
    if ¬ isspacechar ch then
      let c := { c with visibleChars := c.visibleChars + 1 }
      if ¬ IsSpaceEquiv c.state then { c with chPrevNonWhite := ch, stylePrevNonWhite := c.state }
      else c
    else c
  let c := if atLineEndB doc endPos c.pos then scalaLineEndBlock c else c
  forward endPos c

/-- One iteration of the ColouriseScalaDoc while loop. -/
def scalaStep (doc : List Char) (endPos : Nat)
    (kwK kwC kwT : List String) (c : LexCtx) : LexCtx :=
  match scalaCaseArm doc endPos kwK kwC kwT c with
  | .cont c => c
  | .next c =>
    match (if c.state = SCE_SCALA_DEFAULT then scalaEntry doc endPos c else .next c) with
    | .cont c => c
    | .next c => scalaFinish doc endPos c

/-- The fuelled while loop: iterate while More() holds. -/
def scalaRunN (doc : List Char) (endPos : Nat)
    (kwK kwC kwT : List String) : Nat → LexCtx → LexCtx
  | 0, c => c
  | fuel + 1, c =>
    if c.pos < endPos then scalaRunN doc endPos kwK kwC kwT fuel (scalaStep doc endPos kwK kwC kwT c)
    else c

/-- LexScala.cxx lines 133-138: the document-start shebang special case,
then the whole-document scan from the default state with the given keyword
lists, ending with StyleContext.Complete. -/
def scalaLexDoc (doc : List Char) (kwK kwC kwT : List String) : LexCtx :=
  let endPos := doc.length
  let c := initCtx 0 SCE_SCALA_DEFAULT
  let c :=
    if chAt doc 0 = '#' ∧ chAt doc 1 = '!' then
      forward endPos (setState c SCE_SCALA_COMMENTLINE)
    else c
  complete (scalaRunN doc endPos kwK kwC kwT (2 * endPos + 2) c)

/-! ### LexZig.cxx: the main scan loop -/

/-- LexZig.cxx lines 116-118 and 122-124: the width and precision digit
runs of CheckBraceFormatSpecifier; fuelled by the buffer length, past which
every read yields NUL and the run stops. -/
def skipDigitsAux (doc : List Char) : Nat → Nat → Nat
  | 0, p => p
  | fuel + 1, p => if IsADigit (chAt doc p) then skipDigitsAux doc fuel (p + 1) else p

def skipDigitsFrom (doc : List Char) (p : Nat) : Nat :=
  skipDigitsAux doc (doc.length + 1) p

/-- LexZig.cxx lines 86-130: CheckBraceFormatSpecifier, the brace-delimited
format-directive recognizer.  It walks the buffer from the current
position and returns the distance to the terminating closing brace, or 0
when any step deviates.  The multi-byte-width accessor read is modelled
with width one (ASCII buffers). -/
def CheckBraceFormatSpecifier (doc : List Char) (pos0 : Nat) : Nat :=
  let step1 : Option Nat :=
    if IsBraceFormatSpecifier (chAt doc pos0) then
      let p := pos0 + 1
      let p :=
        if chAt doc pos0 = 'a' ∧ chAt doc (pos0 + 1) = 'n' ∧ chAt doc (pos0 + 2) = 'y' then p + 2
        else p
      let c := chAt doc p
      if c = ':' ∨ c = '.' ∨ c = '}' ∨ c = '<' ∨ c = '>' ∨ c = '^' then some p else none
    else some pos0
  match step1 with
  | none => 0
  | some p =>
    let p := if chAt doc p = ':' then p + 1 else p
    let c := chAt doc p
    let p :=
      if ¬ (c = '\r' ∨ c = '\n' ∨ c = '{' ∨ c = '}') then
        let chNext := chAt doc (p + 1)
        if (c = '<' ∨ c = '>' ∨ c = '^') ∨ (chNext = '<' ∨ chNext = '>' ∨ chNext = '^') then p + 2
        else p
      else p
    let p := skipDigitsFrom doc p
    let p := if chAt doc p = '.' then skipDigitsFrom doc (p + 1) else p
    if chAt doc p = '}' then p - pos0 else 0

/-- LexZig.cxx lines 175-200: the identifier-family case arm (IDENTIFIER
and BUILTIN_FUNCTION). -/
def zigCaseIdent (doc : List Char) (endPos : Nat) (kwK kwT : List String) (c : LexCtx) : LexFlow :=
  if ¬ IsIdentifierCharEx (chAt doc c.pos) then
    let c :=
      if c.state = SCE_ZIG_IDENTIFIER then
        let s := String.mk (((doc.drop c.segStart).take (c.pos - c.segStart)).take 15)
        if kwK.contains s then
          let c := { changeState c SCE_ZIG_WORD with kwType := 0 }
          if s = "fn" then { c with kwType := SCE_ZIG_FUNCTION_DEFINITION } else c
        else if kwT.contains s then changeState c SCE_ZIG_TYPE
        else if c.kwType ≠ 0 then changeState c c.kwType
        else if getLineNextChar doc endPos c.pos = '(' then changeState c SCE_ZIG_FUNCTION
        else c
      else c
    let c := if c.state ≠ SCE_ZIG_WORD then { c with kwType := 0 } else c
    .next (setState c SCE_ZIG_DEFAULT)
  else .next c

/-- LexZig.cxx lines 202-239: the character, string and line-oriented
multiline-string case arm, including the escape introducer and the brace
placeholder entry. -/
def zigCaseString (doc : List Char) (endPos : Nat) (c : LexCtx) : LexFlow :=
  let ch := chAt doc c.pos
  let chN := chAt doc (c.pos + 1)
  if atLineStartB doc c.pos then .next (setState c SCE_ZIG_DEFAULT)
  else if ch = '\\' ∧ c.state ≠ SCE_ZIG_MULTISTRING then
    let c :=
      { c with escOuter := c.state, escBrace := false,
               escDigits := if chN = 'x' then 3 else if chN = 'u' then 5 else 1 }
    let c := forward endPos (setState c SCE_ZIG_ESCAPECHAR)
    let c :=
      if chAt doc c.pos = 'u' ∧ chAt doc (c.pos + 1) = '{' then
        forward endPos { c with escBrace := true, escDigits := 7 }
      else c
    .next c
  else if (ch = '\'' ∧ c.state = SCE_ZIG_CHARACTER) ∨ (ch = '"' ∧ c.state = SCE_ZIG_STRING) then
    .cont (forwardSetState endPos c SCE_ZIG_DEFAULT)
  else if c.state ≠ SCE_ZIG_CHARACTER then
    if ch = '{' ∨ ch = '}' then
      if ch = chN then
        let c := { c with escOuter := c.state, escDigits := 1, escBrace := false }
        .next (forward endPos (setState c SCE_ZIG_ESCAPECHAR))
      else if ch = '{' ∧ IsBraceFormatNext chN then
        let c := setState { c with escOuter := c.state } SCE_ZIG_PLACEHOLDER
        let c := { c with fmtArgument := fmtNone }
        let c :=
          if IsADigit chN then { c with fmtArgument := fmtDigit }
          else if chN = '[' then
            let c := { c with fmtArgument := fmtIdentifier }
            if IsIdentifierStartEx (chAt doc (c.pos + 2)) then forward endPos c else c
          else c
        .next c
      else .next c
    else .next c
  else .next c

/-- LexZig.cxx lines 251-277: the placeholder case arm, including the
abort-and-reclassify fallback (Rewind plus ChangeState to the outer
string state). -/
def zigCasePlaceholder (doc : List Char) (endPos : Nat) (c : LexCtx) : LexFlow :=
  if ¬ IsFormatArgument (chAt doc c.pos) c.fmtArgument then
    let c :=
      if c.fmtArgument = fmtIdentifier then
        if chAt doc c.pos = ']' then forward endPos c else { c with fmtArgument := fmtError }
      else c
    let length := if c.fmtArgument ≠ fmtError then CheckBraceFormatSpecifier doc c.pos else 0
    if length ≠ 0 then
      let c := setState c SCE_ZIG_FORMAT_SPECIFIER
      let c := advanceN endPos length c
      let c := setState c SCE_ZIG_PLACEHOLDER
      .cont (forwardSetState endPos c c.escOuter)
    else
      let c :=
        if c.fmtArgument = fmtError ∨ chAt doc c.pos ≠ '}' then
          changeState (rewind c) c.escOuter
        else c
      .cont (forwardSetState endPos c c.escOuter)
  else .next c

/-- LexZig.cxx lines 164-286: the switch on the current automaton state. -/
def zigCaseArm (doc : List Char) (endPos : Nat) (kwK kwT : List String) (c : LexCtx) : LexFlow :=
  let ch := chAt doc c.pos
  if c.state = SCE_ZIG_OPERATOR then .next (setState c SCE_ZIG_DEFAULT)
  else if c.state = SCE_ZIG_NUMBER then
    if ¬ IsDecimalNumber (chPrevAt doc c.pos) ch (chAt doc (c.pos + 1)) then
      .next (setState c SCE_ZIG_DEFAULT)
    else .next c
  else if c.state = SCE_ZIG_IDENTIFIER ∨ c.state = SCE_ZIG_BUILTIN_FUNCTION then
    zigCaseIdent doc endPos kwK kwT c
  else if c.state = SCE_ZIG_CHARACTER ∨ c.state = SCE_ZIG_STRING
      ∨ c.state = SCE_ZIG_MULTISTRING then
    zigCaseString doc endPos c
  else if c.state = SCE_ZIG_ESCAPECHAR then
    let d := c.escDigits - 1
    let c := { c with escDigits := d }
    if d ≤ 0 ∨ ¬ IsHexDigit ch then
      let c := if c.escBrace ∧ ch = '}' then forward endPos c else c
      .cont (setState c c.escOuter)
    else .next c
  else if c.state = SCE_ZIG_PLACEHOLDER then zigCasePlaceholder doc endPos c
  else if c.state = SCE_ZIG_COMMENTLINE ∨ c.state = SCE_ZIG_COMMENTLINEDOC
      ∨ c.state = SCE_ZIG_COMMENTLINETOP then
    if atLineStartB doc c.pos then .next (setState c SCE_ZIG_DEFAULT) else .next c
  else .next c

/-- LexZig.cxx lines 288-314: the default-state entry dispatch. -/
def zigEntry (doc : List Char) (endPos : Nat) (c : LexCtx) : LexCtx :=
  let ch := chAt doc c.pos
  let chN := chAt doc (c.pos + 1)
  if ch = '/' ∧ chN = '/' then
    let c := if c.visibleChars = 0 then { c with lineState := ZigLineStateMaskLineComment } else c
    let c := advanceN endPos 2 (setState c SCE_ZIG_COMMENTLINE)
    if chAt doc c.pos = '!' then changeState c SCE_ZIG_COMMENTLINETOP
    else if chAt doc c.pos = '/' ∧ chAt doc (c.pos + 1) ≠ '/' then
      changeState c SCE_ZIG_COMMENTLINEDOC
    else c
  else if ch = '\\' ∧ chN = '\\' then
    setState { c with lineState := ZigLineStateMaskMultilineString } SCE_ZIG_MULTISTRING
  else if ch = '"' then setState c SCE_ZIG_STRING
  else if ch = '\'' then setState c SCE_ZIG_CHARACTER
  else if IsNumberStart ch chN then setState c SCE_ZIG_NUMBER
  else if (ch = '@' ∧ IsIdentifierStartEx chN) ∨ IsIdentifierStartEx ch then
    setState c (if ch = '@' then SCE_ZIG_BUILTIN_FUNCTION else SCE_ZIG_IDENTIFIER)
  else if IsAGraphic ch then setState c SCE_ZIG_OPERATOR
  else c

/-- LexZig.cxx lines 316-325: the shared trailing block of one iteration. -/
def zigFinish (doc : List Char) (endPos : Nat) (c : LexCtx) : LexCtx :=
  let ch := chAt doc c.pos
  let c := if c.visibleChars = 0 ∧ ¬ isspacechar ch then { c with visibleChars := 1 } else c
  let c :=
    if atLineEndB doc endPos c.pos then
      { pushLineState c c.lineState with lineState := 0, kwType := 0, visibleChars := 0 }
    else c
  forward endPos c

/-- One iteration of the ColouriseZigDoc while loop. -/
def zigStep (doc : List Char) (endPos : Nat) (kwK kwT : List String) (c : LexCtx) : LexCtx :=
  match zigCaseArm doc endPos kwK kwT c with
  | .cont c => c
  | .next c =>
    zigFinish doc endPos (if c.state = SCE_ZIG_DEFAULT then zigEntry doc endPos c else c)

/-- The fuelled while loop: iterate while More() holds. -/
def zigRunN (doc : List Char) (endPos : Nat) (kwK kwT : List String) : Nat → LexCtx → LexCtx
  | 0, c => c
  | fuel + 1, c =>
    if c.pos < endPos then zigRunN doc endPos kwK kwT fuel (zigStep doc endPos kwK kwT c)
    else c

/-- Whole-document scan from the default state with the given keyword
lists, ending with StyleContext.Complete. -/
def zigLexDoc (doc : List Char) (kwK kwT : List String) : LexCtx :=
  let endPos := doc.length
  complete (zigRunN doc endPos kwK kwT (2 * endPos + 2) (initCtx 0 SCE_ZIG_DEFAULT))

/-! ### FoldZigDoc (LexZig.cxx lines 331-407)

The position loop is regrouped by line: the document is a list of lines,
each line a list of (character, style) pairs as produced by the styler; the
per-line integers are the persisted LineState stream.  The
CheckBraceOnNextLine adjustment of LexerUtils.h is outside src and absent
from the spec contract in section 4.4, so it is modelled as never
matching. -/

def SC_FOLDLEVELBASE : Int := 0x400
def SC_FOLDLEVELHEADERFLAG : Nat := 0x2000

/-- FoldLineState of LexZig.cxx lines 331-338: the two flag fields
extracted from a persisted line state. -/
def zigFoldLineComment (lineState : Nat) : Nat := lineState &&& 1

def zigFoldMultilineString (lineState : Nat) : Nat := (lineState >>> 1) &&& 1

/-- LexZig.cxx lines 360-375: the inner character walk of one line,
accumulating the brace delta over operator-styled characters and the
visible-character flag. -/
def zigFoldLineInner : List (Char × Nat) → Int × Bool → Int × Bool
  | [], acc => acc
  | (ch, style) :: rest, (levelNext, visible) =>
    let levelNext :=
      if style = SCE_ZIG_OPERATOR then
        if ch = '{' ∨ ch = '[' ∨ ch = '(' then levelNext + 1
        else if ch = '}' ∨ ch = ']' ∨ ch = ')' then levelNext - 1
        else levelNext
      else levelNext
    let visible := visible || ! IsZigSpaceEquiv style
    zigFoldLineInner rest (levelNext, visible)

/-- LexZig.cxx lines 376-404: the line-boundary block, producing the next
level and the stored fold-level word for the completed line. -/
def zigFoldProcessLine (foldPrev foldCurrent foldNext : Nat) (levelCurrent : Int)
    (line : List (Char × Nat)) : Int × Nat :=
  let inner := zigFoldLineInner line (levelCurrent, false)
  let levelNext := max inner.1 SC_FOLDLEVELBASE
  let levelNext :=
    if zigFoldLineComment foldCurrent = 1 then
      levelNext + ((zigFoldLineComment foldNext : Int) - (zigFoldLineComment foldPrev : Int))
    else if zigFoldMultilineString foldCurrent = 1 then
      levelNext + ((zigFoldMultilineString foldNext : Int) - (zigFoldMultilineString foldPrev : Int))
    else levelNext
  let levelUse := levelCurrent
  let lev := levelUse.toNat ||| (levelNext.toNat <<< 16)
  let lev := if levelUse < levelNext then lev ||| SC_FOLDLEVELHEADERFLAG else lev
  (levelNext, lev)

/-- The whole fold pass: walk the lines in order, threading the previous
and current line states and the running level, emitting one stored
fold-level word per line. -/
def zigFoldAux : List (List (Char × Nat)) → Nat → List Nat → Int → List Nat
  | [], _, _, _ => []
  | line :: rest, foldPrev, states, level =>
    let foldCurrent := states.headD 0
    let foldNext := (states.drop 1).headD 0
    let r := zigFoldProcessLine foldPrev foldCurrent foldNext level line
    r.2 :: zigFoldAux rest foldCurrent (states.drop 1) r.1

def zigFoldDoc (lines : List (List (Char × Nat))) (lineStates : List Nat) : List Nat :=
  zigFoldAux lines 0 lineStates SC_FOLDLEVELBASE

/-- The count of net openers on a line: operator-styled opening braces,
brackets and parentheses. -/
def zigFoldOpenCount (line : List (Char × Nat)) : Nat :=
  (line.filter (fun p => p.2 = SCE_ZIG_OPERATOR ∧ (p.1 = '{' ∨ p.1 = '[' ∨ p.1 = '('))).length

/-- The count of net closers on a line: operator-styled closing braces,
brackets and parentheses. -/
def zigFoldCloseCount (line : List (Char × Nat)) : Nat :=
  (line.filter (fun p => p.2 = SCE_ZIG_OPERATOR ∧ (p.1 = '}' ∨ p.1 = ']' ∨ p.1 = ')'))).length

/-! ### The LineState codec (LexScala.cxx lines 128-132 and 442-456) -/

/-- LexScala.cxx line 450: the per-line integer packs the continuation
flags in the low byte, the comment-nesting depth in the second byte, and
the leading indent width from bit 16 up. -/
def scalaLineStateEncode (flags commentLevel indentCount : Nat) : Nat :=
  flags ||| ((commentLevel <<< 8) ||| (indentCount <<< 16))

/-- Modelled from the spec: the flag byte of a persisted line state, as
read back by the fold pass (FoldPyDoc lives in LexerUtils.h outside src). -/
def scalaLineStateDecodeFlags (ls : Nat) : Nat := ls &&& 0xff

/-- LexScala.cxx line 130: the comment-nesting depth read back on resume. -/
def scalaLineStateDecodeCommentLevel (ls : Nat) : Nat := (ls >>> 8) &&& 0xff

/-- Modelled from the spec: the indent-width field of a persisted line
state, as read back by the fold pass (outside src). -/
def scalaLineStateDecodeIndentCount (ls : Nat) : Nat := (ls >>> 16) &&& 0xffff

def scalaLineStateDecode (ls : Nat) : Nat × Nat × Nat :=
  (scalaLineStateDecodeFlags ls, scalaLineStateDecodeCommentLevel ls,
    scalaLineStateDecodeIndentCount ls)

/-! ### Trace instrumentation and concrete inputs -/

/-- The greatest context-stack depth reached along the scan, observed over
the iteration trace of the Scala loop. -/
def scalaMaxDepthN (doc : List Char) (endPos : Nat) (kwK kwC kwT : List String) :
    Nat → LexCtx → Nat
  | 0, c => c.nestedState.length
  | fuel + 1, c =>
    if c.pos < endPos then
      max c.nestedState.length
        (scalaMaxDepthN doc endPos kwK kwC kwT fuel (scalaStep doc endPos kwK kwC kwT c))
    else c.nestedState.length

def scalaMaxDepthDoc (doc : List Char) : Nat :=
  scalaMaxDepthN doc doc.length [] [] [] (2 * doc.length + 2) (initCtx 0 SCE_SCALA_DEFAULT)

def c3doc : List Char := ['"', '"', '"', 'a', '"', '"', '"', '"']

def c4docScala : List Char := ['"', '\\', 'x', '4', '1', '"']

def c5doc : List Char := ['"', '{', '0', ':', '"']

def c6docClaim : List Char := ['"', '$', '{', '"', '$', '{', '1', '}', '"', '}', '"']

def c6docAmended : List Char :=
  ['s', '"', '$', '{', 's', '"', '$', '{', '1', '}', '"', '}', '"']

def c7docA : List Char := ['a', ' ', '<', ' ', 'b']

def c7docB : List Char := ['(', '<', 't', 'a', 'g', '/', '>', ')']

def c9docZig : List Char := ['"', '\\', 'a', '"']

/-! ### Predicates used by the loop invariants -/

/-- The eight states handled by the string-family case arm of
ColouriseScalaDoc. -/
def scalaStringArmStates : List Nat :=
  [SCE_SCALA_BACKTICKS, SCE_SCALA_CHARACTER, SCE_SCALA_XML_STRING_SQ, SCE_SCALA_XML_STRING_DQ,
    SCE_SCALA_STRING, SCE_SCALA_INTERPOLATED_STRING, SCE_SCALA_TRIPLE_STRING,
    SCE_SCALA_TRIPLE_INTERPOLATED_STRING]

/-- The three states handled by the literal case arm of ColouriseZigDoc. -/
def zigStringArmStates : List Nat :=
  [SCE_ZIG_CHARACTER, SCE_ZIG_STRING, SCE_ZIG_MULTISTRING]

/-- States whose Scala case arm may hand control back to the loop head
without advancing the cursor (a stalling re-dispatch). -/
def scalaStallCapable (s : Nat) : Bool :=
  s = SCE_SCALA_IDENTIFIER || s = SCE_SCALA_ANNOTATION || s = SCE_SCALA_SYMBOL
  || s = SCE_SCALA_XML_TAG || s = SCE_SCALA_XML_ATTRIBUTE || s = SCE_SCALA_COMMENTTAG
  || s = SCE_SCALA_ESCAPECHAR

/-- States whose Zig case arm may hand control back to the loop head
without advancing the cursor. -/
def zigStallCapable (s : Nat) : Bool :=
  s = SCE_ZIG_ESCAPECHAR || s = SCE_ZIG_PLACEHOLDER

/-- Loop invariant of ColouriseScalaDoc: the escape tracker only ever
records the default state or a string-family state as the state to return
to (it is default-initialised and assigned only from those states). -/
def scalaOuterOk (c : LexCtx) : Bool :=
  c.escOuter = SCE_SCALA_DEFAULT || scalaStringArmStates.contains c.escOuter

/-- Loop invariant of ColouriseZigDoc: the escape tracker only ever records
the default state or a literal state as the state to return to. -/
def zigOuterOk (c : LexCtx) : Bool :=
  c.escOuter = SCE_ZIG_DEFAULT || zigStringArmStates.contains c.escOuter

def c2doc : List Char := ['}', 'x']

/-! ### Theorems -/

theorem encode_testBit (f d i j : Nat) :
    (scalaLineStateEncode f d i).testBit j =
      (f.testBit j || (decide (8 ≤ j) && d.testBit (j - 8))
        || (decide (16 ≤ j) && i.testBit (j - 16))) := by
  simp [scalaLineStateEncode, Nat.testBit_lor, Nat.testBit_shiftLeft, Bool.or_assoc]

theorem testBit_false_of_lt_le (n : Nat) {x j : Nat} (hx : x < 2 ^ n) (hj : n ≤ j) :
    x.testBit j = false :=
  Nat.testBit_lt_two_pow (lt_of_lt_of_le hx (Nat.pow_le_pow_right (by omega) hj))

theorem decodeFlags_encode (f d i : Nat) (hf : f < 256) :
    scalaLineStateDecodeFlags (scalaLineStateEncode f d i) = f := by
  apply Nat.eq_of_testBit_eq
  intro j
  have h255 : (0xff : Nat) = 2 ^ 8 - 1 := by norm_num
  simp only [scalaLineStateDecodeFlags, h255, Nat.testBit_land, encode_testBit,
    Nat.testBit_two_pow_sub_one]
  by_cases hj : j < 8
  · have h8 : ¬ (8 ≤ j) := by omega
    have h16 : ¬ (16 ≤ j) := by omega
    simp [hj, h8, h16]
  · have hfj : f.testBit j = false := testBit_false_of_lt_le 8 (by simpa using hf) (by omega)
    simp [hj, hfj]

theorem decodeComment_encode (f d i : Nat) (hf : f < 256) (hd : d < 256) :
    scalaLineStateDecodeCommentLevel (scalaLineStateEncode f d i) = d := by
  apply Nat.eq_of_testBit_eq
  intro j
  have h255 : (0xff : Nat) = 2 ^ 8 - 1 := by norm_num
  simp only [scalaLineStateDecodeCommentLevel, h255, Nat.testBit_land, Nat.testBit_shiftRight,
    encode_testBit, Nat.testBit_two_pow_sub_one]
  by_cases hj : j < 8
  · have hfj : f.testBit (8 + j) = false := testBit_false_of_lt_le 8 (by simpa using hf) (by omega)
    have h8 : 8 ≤ 8 + j := by omega
    have h16 : ¬ (16 ≤ 8 + j) := by omega
    have hsub : 8 + j - 8 = j := by omega
    simp [hj, hfj, h8, h16, hsub]
  · have hdj : d.testBit j = false := testBit_false_of_lt_le 8 (by simpa using hd) (by omega)
    simp [hj, hdj]

theorem decodeIndent_encode (f d i : Nat) (hf : f < 256) (hd : d < 256) (hi : i < 65536) :
    scalaLineStateDecodeIndentCount (scalaLineStateEncode f d i) = i := by
  apply Nat.eq_of_testBit_eq
  intro j
  have hffff : (0xffff : Nat) = 2 ^ 16 - 1 := by norm_num
  simp only [scalaLineStateDecodeIndentCount, hffff, Nat.testBit_land, Nat.testBit_shiftRight,
    encode_testBit, Nat.testBit_two_pow_sub_one]
  by_cases hj : j < 16
  · have hfj : f.testBit (16 + j) = false := testBit_false_of_lt_le 8 (by simpa using hf) (by omega)
    have hdj : d.testBit (16 + j - 8) = false := testBit_false_of_lt_le 8 (by simpa using hd) (by omega)
    have h8 : 8 ≤ 16 + j := by omega
    have h16 : 16 ≤ 16 + j := by omega
    have hsub : 16 + j - 16 = j := by omega
    simp [hj, hfj, hdj, h8, h16, hsub]
  · have hij : i.testBit j = false := testBit_false_of_lt_le 16 (by simpa using hi) (by omega)
    simp [hj, hij]

/-- C1: the LineState codec is a lossless round-trip: decoding the encoded
per-line integer recovers the flag byte, the comment-nesting depth and the
indent width for every combination within the supported ranges (flags and
depth one byte each, indent sixteen bits); decode is a total function on
all integers; and the encoding is injective on that domain, so distinct
semantic states map to distinct encodings. -/
theorem scala_lineState_codec_lossless (f d i : Nat)
    (hf : f < 256) (hd : d < 256) (hi : i < 65536) :
    scalaLineStateDecode (scalaLineStateEncode f d i) = (f, d, i)
    ∧ ∀ f' d' i', f' < 256 → d' < 256 → i' < 65536 →
        scalaLineStateEncode f d i = scalaLineStateEncode f' d' i' →
        f = f' ∧ d = d' ∧ i = i' := by
  constructor
  · unfold scalaLineStateDecode
    rw [decodeFlags_encode f d i hf, decodeComment_encode f d i hf hd,
      decodeIndent_encode f d i hf hd hi]
  · intro f' d' i' hf' hd' hi' heq
    refine ⟨?_, ?_, ?_⟩
    · rw [← decodeFlags_encode f d i hf, heq, decodeFlags_encode f' d' i' hf']
    · rw [← decodeComment_encode f d i hf hd, heq, decodeComment_encode f' d' i' hf' hd']
    · rw [← decodeIndent_encode f d i hf hd hi, heq, decodeIndent_encode f' d' i' hf' hd' hi']

theorem scala_lineState_codec_lossless_witness :
    scalaLineStateDecode (scalaLineStateEncode 21 3 7) = (21, 3, 7) :=
  (scala_lineState_codec_lossless 21 3 7 (by decide) (by decide) (by decide)).1

/-- C3: on the input consisting of a triple-quote open, the content "a",
and a run of four quote characters, the Scala scanner emits one
triple-string token covering all eight characters (so every quote of the
run before the final three is literal string content), the token ends
exactly at the final quote, and the automaton is back in the default state
(the string was closed by the final three quotes). -/
theorem scala_triple_quote_close :
    (scalaLexDoc c3doc [] [] []).runs = [(0, 8, SCE_SCALA_TRIPLE_STRING)]
    ∧ (scalaLexDoc c3doc [] [] []).state = SCE_SCALA_DEFAULT
    ∧ (scalaLexDoc c3doc [] [] []).pos = 8 := by
  decide

/-- C5: on the input where the placeholder opener, a digit argument and a
colon are immediately followed by the closing double quote, the Zig scanner
reclassifies every consumed placeholder character as ordinary string
content (all five characters carry the string style), the scan ends exactly
at the closing quote, and the string is closed. -/
theorem zig_placeholder_fallback :
    ((List.range 5).all fun p => styleAt (zigLexDoc c5doc [] []).runs p = SCE_ZIG_STRING)
    ∧ (zigLexDoc c5doc [] []).pos = 5
    ∧ (zigLexDoc c5doc [] []).state = SCE_ZIG_DEFAULT := by
  decide

/-- C7: markup-versus-comparison disambiguation of a less-than sign.  In
the buffer "a < b" the previous visible token is an identifier (expression
position), so the less-than at position 2 is styled as an operator; in the
buffer "(<tag/>)" the previous visible character is an opening parenthesis,
so the less-than at position 1 starts a markup tag. -/
theorem scala_markup_vs_comparison :
    styleAt (scalaLexDoc c7docA [] [] []).runs 2 = SCE_SCALA_OPERATOR
    ∧ styleAt (scalaLexDoc c7docB [] [] []).runs 1 = SCE_SCALA_XML_TAG := by
  decide

/-- C6 counterexample: on the exact input of the claim, scanned from the
default state, the opening quote is not preceded by an identifier
character, so the string is a plain (non-interpolating) string; the
dollar-brace sequence never pushes, and the greatest context-stack depth
reached during the scan is 0, not 2 as the claim states. -/
theorem scala_interpolation_depth_counterexample :
    scalaMaxDepthDoc c6docClaim = 0 ∧ scalaMaxDepthDoc c6docClaim ≠ 2 := by
  decide

/-- C6 amended: with the interpolation-capable strings written with an
interpolator prefix (an identifier character directly before the opening
quote), the marker followed by an opening brace pushes the current string
state onto the context stack (after the outer push the stack holds the
interpolated-string state), the maximum depth reached during the scan is 2,
and after both the inner and the outer closing braces are consumed the
context-stack depth is 0. -/
theorem scala_interpolation_depth_amended :
    (scalaRunN c6docAmended 13 [] [] [] 4 (initCtx 0 SCE_SCALA_DEFAULT)).nestedState
        = [SCE_SCALA_INTERPOLATED_STRING]
    ∧ scalaMaxDepthDoc c6docAmended = 2
    ∧ (scalaLexDoc c6docAmended [] [] []).nestedState = [] := by
  decide

/-! Projection-push helper lemmas: a field of an if-then-else context is
the if-then-else of the fields, letting simp normalize the step functions. -/

@[simp] theorem lexIte_pos (P : Prop) [Decidable P] (a b : LexCtx) :
    (if P then a else b).pos = if P then a.pos else b.pos :=
  apply_ite LexCtx.pos P a b

@[simp] theorem lexIte_state (P : Prop) [Decidable P] (a b : LexCtx) :
    (if P then a else b).state = if P then a.state else b.state :=
  apply_ite LexCtx.state P a b

@[simp] theorem lexIte_segStart (P : Prop) [Decidable P] (a b : LexCtx) :
    (if P then a else b).segStart = if P then a.segStart else b.segStart :=
  apply_ite LexCtx.segStart P a b

@[simp] theorem lexIte_runs (P : Prop) [Decidable P] (a b : LexCtx) :
    (if P then a else b).runs = if P then a.runs else b.runs :=
  apply_ite LexCtx.runs P a b

@[simp] theorem lexIte_lineState (P : Prop) [Decidable P] (a b : LexCtx) :
    (if P then a else b).lineState = if P then a.lineState else b.lineState :=
  apply_ite LexCtx.lineState P a b

@[simp] theorem lexIte_lineStates (P : Prop) [Decidable P] (a b : LexCtx) :
    (if P then a else b).lineStates = if P then a.lineStates else b.lineStates :=
  apply_ite LexCtx.lineStates P a b

@[simp] theorem lexIte_visibleChars (P : Prop) [Decidable P] (a b : LexCtx) :
    (if P then a else b).visibleChars = if P then a.visibleChars else b.visibleChars :=
  apply_ite LexCtx.visibleChars P a b

@[simp] theorem lexIte_visibleCharsBefore (P : Prop) [Decidable P] (a b : LexCtx) :
    (if P then a else b).visibleCharsBefore = if P then a.visibleCharsBefore else b.visibleCharsBefore :=
  apply_ite LexCtx.visibleCharsBefore P a b

@[simp] theorem lexIte_indentCount (P : Prop) [Decidable P] (a b : LexCtx) :
    (if P then a else b).indentCount = if P then a.indentCount else b.indentCount :=
  apply_ite LexCtx.indentCount P a b

@[simp] theorem lexIte_commentLevel (P : Prop) [Decidable P] (a b : LexCtx) :
    (if P then a else b).commentLevel = if P then a.commentLevel else b.commentLevel :=
  apply_ite LexCtx.commentLevel P a b

@[simp] theorem lexIte_nestedState (P : Prop) [Decidable P] (a b : LexCtx) :
    (if P then a else b).nestedState = if P then a.nestedState else b.nestedState :=
  apply_ite LexCtx.nestedState P a b

@[simp] theorem lexIte_xmlTagLevel (P : Prop) [Decidable P] (a b : LexCtx) :
    (if P then a else b).xmlTagLevel = if P then a.xmlTagLevel else b.xmlTagLevel :=
  apply_ite LexCtx.xmlTagLevel P a b

@[simp] theorem lexIte_kwType (P : Prop) [Decidable P] (a b : LexCtx) :
    (if P then a else b).kwType = if P then a.kwType else b.kwType :=
  apply_ite LexCtx.kwType P a b

@[simp] theorem lexIte_chBefore (P : Prop) [Decidable P] (a b : LexCtx) :
    (if P then a else b).chBefore = if P then a.chBefore else b.chBefore :=
  apply_ite LexCtx.chBefore P a b

@[simp] theorem lexIte_chPrevNonWhite (P : Prop) [Decidable P] (a b : LexCtx) :
    (if P then a else b).chPrevNonWhite = if P then a.chPrevNonWhite else b.chPrevNonWhite :=
  apply_ite LexCtx.chPrevNonWhite P a b

@[simp] theorem lexIte_stylePrevNonWhite (P : Prop) [Decidable P] (a b : LexCtx) :
    (if P then a else b).stylePrevNonWhite = if P then a.stylePrevNonWhite else b.stylePrevNonWhite :=
  apply_ite LexCtx.stylePrevNonWhite P a b

@[simp] theorem lexIte_escOuter (P : Prop) [Decidable P] (a b : LexCtx) :
    (if P then a else b).escOuter = if P then a.escOuter else b.escOuter :=
  apply_ite LexCtx.escOuter P a b

@[simp] theorem lexIte_escDigits (P : Prop) [Decidable P] (a b : LexCtx) :
    (if P then a else b).escDigits = if P then a.escDigits else b.escDigits :=
  apply_ite LexCtx.escDigits P a b

@[simp] theorem lexIte_escBrace (P : Prop) [Decidable P] (a b : LexCtx) :
    (if P then a else b).escBrace = if P then a.escBrace else b.escBrace :=
  apply_ite LexCtx.escBrace P a b

@[simp] theorem lexIte_fmtArgument (P : Prop) [Decidable P] (a b : LexCtx) :
    (if P then a else b).fmtArgument = if P then a.fmtArgument else b.fmtArgument :=
  apply_ite LexCtx.fmtArgument P a b

/-! Projection equations for the primitive cursor operations, so that
proofs about the step functions never expand the context record. -/

@[simp] theorem flushRun_pos (c : LexCtx) :
    (flushRun c).pos = c.pos :=
  by unfold flushRun; split <;> rfl

@[simp] theorem flushRun_state (c : LexCtx) :
    (flushRun c).state = c.state :=
  by unfold flushRun; split <;> rfl

@[simp] theorem flushRun_segStart (c : LexCtx) :
    (flushRun c).segStart = c.segStart :=
  by unfold flushRun; split <;> rfl

@[simp] theorem flushRun_lineState (c : LexCtx) :
    (flushRun c).lineState = c.lineState :=
  by unfold flushRun; split <;> rfl

@[simp] theorem flushRun_lineStates (c : LexCtx) :
    (flushRun c).lineStates = c.lineStates :=
  by unfold flushRun; split <;> rfl

@[simp] theorem flushRun_visibleChars (c : LexCtx) :
    (flushRun c).visibleChars = c.visibleChars :=
  by unfold flushRun; split <;> rfl

@[simp] theorem flushRun_visibleCharsBefore (c : LexCtx) :
    (flushRun c).visibleCharsBefore = c.visibleCharsBefore :=
  by unfold flushRun; split <;> rfl

@[simp] theorem flushRun_indentCount (c : LexCtx) :
    (flushRun c).indentCount = c.indentCount :=
  by unfold flushRun; split <;> rfl

@[simp] theorem flushRun_commentLevel (c : LexCtx) :
    (flushRun c).commentLevel = c.commentLevel :=
  by unfold flushRun; split <;> rfl

@[simp] theorem flushRun_nestedState (c : LexCtx) :
    (flushRun c).nestedState = c.nestedState :=
  by unfold flushRun; split <;> rfl

@[simp] theorem flushRun_xmlTagLevel (c : LexCtx) :
    (flushRun c).xmlTagLevel = c.xmlTagLevel :=
  by unfold flushRun; split <;> rfl

@[simp] theorem flushRun_kwType (c : LexCtx) :
    (flushRun c).kwType = c.kwType :=
  by unfold flushRun; split <;> rfl

@[simp] theorem flushRun_chBefore (c : LexCtx) :
    (flushRun c).chBefore = c.chBefore :=
  by unfold flushRun; split <;> rfl

@[simp] theorem flushRun_chPrevNonWhite (c : LexCtx) :
    (flushRun c).chPrevNonWhite = c.chPrevNonWhite :=
  by unfold flushRun; split <;> rfl

@[simp] theorem flushRun_stylePrevNonWhite (c : LexCtx) :
    (flushRun c).stylePrevNonWhite = c.stylePrevNonWhite :=
  by unfold flushRun; split <;> rfl

@[simp] theorem flushRun_escOuter (c : LexCtx) :
    (flushRun c).escOuter = c.escOuter :=
  by unfold flushRun; split <;> rfl

@[simp] theorem flushRun_escDigits (c : LexCtx) :
    (flushRun c).escDigits = c.escDigits :=
  by unfold flushRun; split <;> rfl

@[simp] theorem flushRun_escBrace (c : LexCtx) :
    (flushRun c).escBrace = c.escBrace :=
  by unfold flushRun; split <;> rfl

@[simp] theorem flushRun_fmtArgument (c : LexCtx) :
    (flushRun c).fmtArgument = c.fmtArgument :=
  by unfold flushRun; split <;> rfl

@[simp] theorem setState_pos (c : LexCtx) (s : Nat) :
    (setState c s).pos = c.pos :=
  by simp [setState]

@[simp] theorem setState_lineState (c : LexCtx) (s : Nat) :
    (setState c s).lineState = c.lineState :=
  by simp [setState]

@[simp] theorem setState_lineStates (c : LexCtx) (s : Nat) :
    (setState c s).lineStates = c.lineStates :=
  by simp [setState]

@[simp] theorem setState_visibleChars (c : LexCtx) (s : Nat) :
    (setState c s).visibleChars = c.visibleChars :=
  by simp [setState]

@[simp] theorem setState_visibleCharsBefore (c : LexCtx) (s : Nat) :
    (setState c s).visibleCharsBefore = c.visibleCharsBefore :=
  by simp [setState]

@[simp] theorem setState_indentCount (c : LexCtx) (s : Nat) :
    (setState c s).indentCount = c.indentCount :=
  by simp [setState]

@[simp] theorem setState_commentLevel (c : LexCtx) (s : Nat) :
    (setState c s).commentLevel = c.commentLevel :=
  by simp [setState]

@[simp] theorem setState_nestedState (c : LexCtx) (s : Nat) :
    (setState c s).nestedState = c.nestedState :=
  by simp [setState]

@[simp] theorem setState_xmlTagLevel (c : LexCtx) (s : Nat) :
    (setState c s).xmlTagLevel = c.xmlTagLevel :=
  by simp [setState]

@[simp] theorem setState_kwType (c : LexCtx) (s : Nat) :
    (setState c s).kwType = c.kwType :=
  by simp [setState]

@[simp] theorem setState_chBefore (c : LexCtx) (s : Nat) :
    (setState c s).chBefore = c.chBefore :=
  by simp [setState]

@[simp] theorem setState_chPrevNonWhite (c : LexCtx) (s : Nat) :
    (setState c s).chPrevNonWhite = c.chPrevNonWhite :=
  by simp [setState]

@[simp] theorem setState_stylePrevNonWhite (c : LexCtx) (s : Nat) :
    (setState c s).stylePrevNonWhite = c.stylePrevNonWhite :=
  by simp [setState]

@[simp] theorem setState_escOuter (c : LexCtx) (s : Nat) :
    (setState c s).escOuter = c.escOuter :=
  by simp [setState]

@[simp] theorem setState_escDigits (c : LexCtx) (s : Nat) :
    (setState c s).escDigits = c.escDigits :=
  by simp [setState]

@[simp] theorem setState_escBrace (c : LexCtx) (s : Nat) :
    (setState c s).escBrace = c.escBrace :=
  by simp [setState]

@[simp] theorem setState_fmtArgument (c : LexCtx) (s : Nat) :
    (setState c s).fmtArgument = c.fmtArgument :=
  by simp [setState]

@[simp] theorem setState_state (c : LexCtx) (s : Nat) :
    (setState c s).state = s :=
  rfl

@[simp] theorem setState_segStart (c : LexCtx) (s : Nat) :
    (setState c s).segStart = c.pos :=
  by simp [setState]

@[simp] theorem changeState_pos (c : LexCtx) (s : Nat) :
    (changeState c s).pos = c.pos :=
  rfl

@[simp] theorem changeState_segStart (c : LexCtx) (s : Nat) :
    (changeState c s).segStart = c.segStart :=
  rfl

@[simp] theorem changeState_runs (c : LexCtx) (s : Nat) :
    (changeState c s).runs = c.runs :=
  rfl

@[simp] theorem changeState_lineState (c : LexCtx) (s : Nat) :
    (changeState c s).lineState = c.lineState :=
  rfl

@[simp] theorem changeState_lineStates (c : LexCtx) (s : Nat) :
    (changeState c s).lineStates = c.lineStates :=
  rfl

@[simp] theorem changeState_visibleChars (c : LexCtx) (s : Nat) :
    (changeState c s).visibleChars = c.visibleChars :=
  rfl

@[simp] theorem changeState_visibleCharsBefore (c : LexCtx) (s : Nat) :
    (changeState c s).visibleCharsBefore = c.visibleCharsBefore :=
  rfl

@[simp] theorem changeState_indentCount (c : LexCtx) (s : Nat) :
    (changeState c s).indentCount = c.indentCount :=
  rfl

@[simp] theorem changeState_commentLevel (c : LexCtx) (s : Nat) :
    (changeState c s).commentLevel = c.commentLevel :=
  rfl

@[simp] theorem changeState_nestedState (c : LexCtx) (s : Nat) :
    (changeState c s).nestedState = c.nestedState :=
  rfl

@[simp] theorem changeState_xmlTagLevel (c : LexCtx) (s : Nat) :
    (changeState c s).xmlTagLevel = c.xmlTagLevel :=
  rfl

@[simp] theorem changeState_kwType (c : LexCtx) (s : Nat) :
    (changeState c s).kwType = c.kwType :=
  rfl

@[simp] theorem changeState_chBefore (c : LexCtx) (s : Nat) :
    (changeState c s).chBefore = c.chBefore :=
  rfl

@[simp] theorem changeState_chPrevNonWhite (c : LexCtx) (s : Nat) :
    (changeState c s).chPrevNonWhite = c.chPrevNonWhite :=
  rfl

@[simp] theorem changeState_stylePrevNonWhite (c : LexCtx) (s : Nat) :
    (changeState c s).stylePrevNonWhite = c.stylePrevNonWhite :=
  rfl

@[simp] theorem changeState_escOuter (c : LexCtx) (s : Nat) :
    (changeState c s).escOuter = c.escOuter :=
  rfl

@[simp] theorem changeState_escDigits (c : LexCtx) (s : Nat) :
    (changeState c s).escDigits = c.escDigits :=
  rfl

@[simp] theorem changeState_escBrace (c : LexCtx) (s : Nat) :
    (changeState c s).escBrace = c.escBrace :=
  rfl

@[simp] theorem changeState_fmtArgument (c : LexCtx) (s : Nat) :
    (changeState c s).fmtArgument = c.fmtArgument :=
  rfl

@[simp] theorem changeState_state (c : LexCtx) (s : Nat) :
    (changeState c s).state = s :=
  rfl

@[simp] theorem forward_state (e : Nat) (c : LexCtx) :
    (forward e c).state = c.state :=
  by unfold forward; split <;> rfl

@[simp] theorem forward_segStart (e : Nat) (c : LexCtx) :
    (forward e c).segStart = c.segStart :=
  by unfold forward; split <;> rfl

@[simp] theorem forward_runs (e : Nat) (c : LexCtx) :
    (forward e c).runs = c.runs :=
  by unfold forward; split <;> rfl

@[simp] theorem forward_lineState (e : Nat) (c : LexCtx) :
    (forward e c).lineState = c.lineState :=
  by unfold forward; split <;> rfl

@[simp] theorem forward_lineStates (e : Nat) (c : LexCtx) :
    (forward e c).lineStates = c.lineStates :=
  by unfold forward; split <;> rfl

@[simp] theorem forward_visibleChars (e : Nat) (c : LexCtx) :
    (forward e c).visibleChars = c.visibleChars :=
  by unfold forward; split <;> rfl

@[simp] theorem forward_visibleCharsBefore (e : Nat) (c : LexCtx) :
    (forward e c).visibleCharsBefore = c.visibleCharsBefore :=
  by unfold forward; split <;> rfl

@[simp] theorem forward_indentCount (e : Nat) (c : LexCtx) :
    (forward e c).indentCount = c.indentCount :=
  by unfold forward; split <;> rfl

@[simp] theorem forward_commentLevel (e : Nat) (c : LexCtx) :
    (forward e c).commentLevel = c.commentLevel :=
  by unfold forward; split <;> rfl

@[simp] theorem forward_nestedState (e : Nat) (c : LexCtx) :
    (forward e c).nestedState = c.nestedState :=
  by unfold forward; split <;> rfl

@[simp] theorem forward_xmlTagLevel (e : Nat) (c : LexCtx) :
    (forward e c).xmlTagLevel = c.xmlTagLevel :=
  by unfold forward; split <;> rfl

@[simp] theorem forward_kwType (e : Nat) (c : LexCtx) :
    (forward e c).kwType = c.kwType :=
  by unfold forward; split <;> rfl

@[simp] theorem forward_chBefore (e : Nat) (c : LexCtx) :
    (forward e c).chBefore = c.chBefore :=
  by unfold forward; split <;> rfl

@[simp] theorem forward_chPrevNonWhite (e : Nat) (c : LexCtx) :
    (forward e c).chPrevNonWhite = c.chPrevNonWhite :=
  by unfold forward; split <;> rfl

@[simp] theorem forward_stylePrevNonWhite (e : Nat) (c : LexCtx) :
    (forward e c).stylePrevNonWhite = c.stylePrevNonWhite :=
  by unfold forward; split <;> rfl

@[simp] theorem forward_escOuter (e : Nat) (c : LexCtx) :
    (forward e c).escOuter = c.escOuter :=
  by unfold forward; split <;> rfl

@[simp] theorem forward_escDigits (e : Nat) (c : LexCtx) :
    (forward e c).escDigits = c.escDigits :=
  by unfold forward; split <;> rfl

@[simp] theorem forward_escBrace (e : Nat) (c : LexCtx) :
    (forward e c).escBrace = c.escBrace :=
  by unfold forward; split <;> rfl

@[simp] theorem forward_fmtArgument (e : Nat) (c : LexCtx) :
    (forward e c).fmtArgument = c.fmtArgument :=
  by unfold forward; split <;> rfl

@[simp] theorem forward_pos (e : Nat) (c : LexCtx) :
    (forward e c).pos = if c.pos < e then c.pos + 1 else c.pos :=
  by unfold forward; split <;> rfl

@[simp] theorem forwardSetState_lineState (e : Nat) (c : LexCtx) (s : Nat) :
    (forwardSetState e c s).lineState = c.lineState :=
  by simp [forwardSetState]

@[simp] theorem forwardSetState_lineStates (e : Nat) (c : LexCtx) (s : Nat) :
    (forwardSetState e c s).lineStates = c.lineStates :=
  by simp [forwardSetState]

@[simp] theorem forwardSetState_visibleChars (e : Nat) (c : LexCtx) (s : Nat) :
    (forwardSetState e c s).visibleChars = c.visibleChars :=
  by simp [forwardSetState]

@[simp] theorem forwardSetState_visibleCharsBefore (e : Nat) (c : LexCtx) (s : Nat) :
    (forwardSetState e c s).visibleCharsBefore = c.visibleCharsBefore :=
  by simp [forwardSetState]

@[simp] theorem forwardSetState_indentCount (e : Nat) (c : LexCtx) (s : Nat) :
    (forwardSetState e c s).indentCount = c.indentCount :=
  by simp [forwardSetState]

@[simp] theorem forwardSetState_commentLevel (e : Nat) (c : LexCtx) (s : Nat) :
    (forwardSetState e c s).commentLevel = c.commentLevel :=
  by simp [forwardSetState]

@[simp] theorem forwardSetState_nestedState (e : Nat) (c : LexCtx) (s : Nat) :
    (forwardSetState e c s).nestedState = c.nestedState :=
  by simp [forwardSetState]

@[simp] theorem forwardSetState_xmlTagLevel (e : Nat) (c : LexCtx) (s : Nat) :
    (forwardSetState e c s).xmlTagLevel = c.xmlTagLevel :=
  by simp [forwardSetState]

@[simp] theorem forwardSetState_kwType (e : Nat) (c : LexCtx) (s : Nat) :
    (forwardSetState e c s).kwType = c.kwType :=
  by simp [forwardSetState]

@[simp] theorem forwardSetState_chBefore (e : Nat) (c : LexCtx) (s : Nat) :
    (forwardSetState e c s).chBefore = c.chBefore :=
  by simp [forwardSetState]

@[simp] theorem forwardSetState_chPrevNonWhite (e : Nat) (c : LexCtx) (s : Nat) :
    (forwardSetState e c s).chPrevNonWhite = c.chPrevNonWhite :=
  by simp [forwardSetState]

@[simp] theorem forwardSetState_stylePrevNonWhite (e : Nat) (c : LexCtx) (s : Nat) :
    (forwardSetState e c s).stylePrevNonWhite = c.stylePrevNonWhite :=
  by simp [forwardSetState]

@[simp] theorem forwardSetState_escOuter (e : Nat) (c : LexCtx) (s : Nat) :
    (forwardSetState e c s).escOuter = c.escOuter :=
  by simp [forwardSetState]

@[simp] theorem forwardSetState_escDigits (e : Nat) (c : LexCtx) (s : Nat) :
    (forwardSetState e c s).escDigits = c.escDigits :=
  by simp [forwardSetState]

@[simp] theorem forwardSetState_escBrace (e : Nat) (c : LexCtx) (s : Nat) :
    (forwardSetState e c s).escBrace = c.escBrace :=
  by simp [forwardSetState]

@[simp] theorem forwardSetState_fmtArgument (e : Nat) (c : LexCtx) (s : Nat) :
    (forwardSetState e c s).fmtArgument = c.fmtArgument :=
  by simp [forwardSetState]

@[simp] theorem forwardSetState_state (e : Nat) (c : LexCtx) (s : Nat) :
    (forwardSetState e c s).state = s :=
  rfl

@[simp] theorem forwardSetState_pos (e : Nat) (c : LexCtx) (s : Nat) :
    (forwardSetState e c s).pos = if c.pos < e then c.pos + 1 else c.pos :=
  by simp [forwardSetState]

@[simp] theorem forwardSetState_segStart (e : Nat) (c : LexCtx) (s : Nat) :
    (forwardSetState e c s).segStart = if c.pos < e then c.pos + 1 else c.pos :=
  by simp [forwardSetState]

@[simp] theorem rewind_state (c : LexCtx) :
    (rewind c).state = c.state :=
  rfl

@[simp] theorem rewind_segStart (c : LexCtx) :
    (rewind c).segStart = c.segStart :=
  rfl

@[simp] theorem rewind_runs (c : LexCtx) :
    (rewind c).runs = c.runs :=
  rfl

@[simp] theorem rewind_lineState (c : LexCtx) :
    (rewind c).lineState = c.lineState :=
  rfl

@[simp] theorem rewind_lineStates (c : LexCtx) :
    (rewind c).lineStates = c.lineStates :=
  rfl

@[simp] theorem rewind_visibleChars (c : LexCtx) :
    (rewind c).visibleChars = c.visibleChars :=
  rfl

@[simp] theorem rewind_visibleCharsBefore (c : LexCtx) :
    (rewind c).visibleCharsBefore = c.visibleCharsBefore :=
  rfl

@[simp] theorem rewind_indentCount (c : LexCtx) :
    (rewind c).indentCount = c.indentCount :=
  rfl

@[simp] theorem rewind_commentLevel (c : LexCtx) :
    (rewind c).commentLevel = c.commentLevel :=
  rfl

@[simp] theorem rewind_nestedState (c : LexCtx) :
    (rewind c).nestedState = c.nestedState :=
  rfl

@[simp] theorem rewind_xmlTagLevel (c : LexCtx) :
    (rewind c).xmlTagLevel = c.xmlTagLevel :=
  rfl

@[simp] theorem rewind_kwType (c : LexCtx) :
    (rewind c).kwType = c.kwType :=
  rfl

@[simp] theorem rewind_chBefore (c : LexCtx) :
    (rewind c).chBefore = c.chBefore :=
  rfl

@[simp] theorem rewind_chPrevNonWhite (c : LexCtx) :
    (rewind c).chPrevNonWhite = c.chPrevNonWhite :=
  rfl

@[simp] theorem rewind_stylePrevNonWhite (c : LexCtx) :
    (rewind c).stylePrevNonWhite = c.stylePrevNonWhite :=
  rfl

@[simp] theorem rewind_escOuter (c : LexCtx) :
    (rewind c).escOuter = c.escOuter :=
  rfl

@[simp] theorem rewind_escDigits (c : LexCtx) :
    (rewind c).escDigits = c.escDigits :=
  rfl

@[simp] theorem rewind_escBrace (c : LexCtx) :
    (rewind c).escBrace = c.escBrace :=
  rfl

@[simp] theorem rewind_fmtArgument (c : LexCtx) :
    (rewind c).fmtArgument = c.fmtArgument :=
  rfl

@[simp] theorem rewind_pos (c : LexCtx) :
    (rewind c).pos = c.pos - 1 :=
  rfl

@[simp] theorem advanceN_state (e n : Nat) (c : LexCtx) :
    (advanceN e n c).state = c.state := by
  induction n generalizing c with
  | zero => rfl
  | succ n ih => simp [advanceN, ih]

@[simp] theorem advanceN_segStart (e n : Nat) (c : LexCtx) :
    (advanceN e n c).segStart = c.segStart := by
  induction n generalizing c with
  | zero => rfl
  | succ n ih => simp [advanceN, ih]

@[simp] theorem advanceN_runs (e n : Nat) (c : LexCtx) :
    (advanceN e n c).runs = c.runs := by
  induction n generalizing c with
  | zero => rfl
  | succ n ih => simp [advanceN, ih]

@[simp] theorem advanceN_lineState (e n : Nat) (c : LexCtx) :
    (advanceN e n c).lineState = c.lineState := by
  induction n generalizing c with
  | zero => rfl
  | succ n ih => simp [advanceN, ih]

@[simp] theorem advanceN_lineStates (e n : Nat) (c : LexCtx) :
    (advanceN e n c).lineStates = c.lineStates := by
  induction n generalizing c with
  | zero => rfl
  | succ n ih => simp [advanceN, ih]

@[simp] theorem advanceN_visibleChars (e n : Nat) (c : LexCtx) :
    (advanceN e n c).visibleChars = c.visibleChars := by
  induction n generalizing c with
  | zero => rfl
  | succ n ih => simp [advanceN, ih]

@[simp] theorem advanceN_visibleCharsBefore (e n : Nat) (c : LexCtx) :
    (advanceN e n c).visibleCharsBefore = c.visibleCharsBefore := by
  induction n generalizing c with
  | zero => rfl
  | succ n ih => simp [advanceN, ih]

@[simp] theorem advanceN_indentCount (e n : Nat) (c : LexCtx) :
    (advanceN e n c).indentCount = c.indentCount := by
  induction n generalizing c with
  | zero => rfl
  | succ n ih => simp [advanceN, ih]

@[simp] theorem advanceN_commentLevel (e n : Nat) (c : LexCtx) :
    (advanceN e n c).commentLevel = c.commentLevel := by
  induction n generalizing c with
  | zero => rfl
  | succ n ih => simp [advanceN, ih]

@[simp] theorem advanceN_nestedState (e n : Nat) (c : LexCtx) :
    (advanceN e n c).nestedState = c.nestedState := by
  induction n generalizing c with
  | zero => rfl
  | succ n ih => simp [advanceN, ih]

@[simp] theorem advanceN_xmlTagLevel (e n : Nat) (c : LexCtx) :
    (advanceN e n c).xmlTagLevel = c.xmlTagLevel := by
  induction n generalizing c with
  | zero => rfl
  | succ n ih => simp [advanceN, ih]

@[simp] theorem advanceN_kwType (e n : Nat) (c : LexCtx) :
    (advanceN e n c).kwType = c.kwType := by
  induction n generalizing c with
  | zero => rfl
  | succ n ih => simp [advanceN, ih]

@[simp] theorem advanceN_chBefore (e n : Nat) (c : LexCtx) :
    (advanceN e n c).chBefore = c.chBefore := by
  induction n generalizing c with
  | zero => rfl
  | succ n ih => simp [advanceN, ih]

@[simp] theorem advanceN_chPrevNonWhite (e n : Nat) (c : LexCtx) :
    (advanceN e n c).chPrevNonWhite = c.chPrevNonWhite := by
  induction n generalizing c with
  | zero => rfl
  | succ n ih => simp [advanceN, ih]

@[simp] theorem advanceN_stylePrevNonWhite (e n : Nat) (c : LexCtx) :
    (advanceN e n c).stylePrevNonWhite = c.stylePrevNonWhite := by
  induction n generalizing c with
  | zero => rfl
  | succ n ih => simp [advanceN, ih]

@[simp] theorem advanceN_escOuter (e n : Nat) (c : LexCtx) :
    (advanceN e n c).escOuter = c.escOuter := by
  induction n generalizing c with
  | zero => rfl
  | succ n ih => simp [advanceN, ih]

@[simp] theorem advanceN_escDigits (e n : Nat) (c : LexCtx) :
    (advanceN e n c).escDigits = c.escDigits := by
  induction n generalizing c with
  | zero => rfl
  | succ n ih => simp [advanceN, ih]

@[simp] theorem advanceN_escBrace (e n : Nat) (c : LexCtx) :
    (advanceN e n c).escBrace = c.escBrace := by
  induction n generalizing c with
  | zero => rfl
  | succ n ih => simp [advanceN, ih]

@[simp] theorem advanceN_fmtArgument (e n : Nat) (c : LexCtx) :
    (advanceN e n c).fmtArgument = c.fmtArgument := by
  induction n generalizing c with
  | zero => rfl
  | succ n ih => simp [advanceN, ih]

@[simp] theorem pushLineState_pos (c : LexCtx) (v : Nat) :
    (pushLineState c v).pos = c.pos :=
  rfl

@[simp] theorem pushLineState_state (c : LexCtx) (v : Nat) :
    (pushLineState c v).state = c.state :=
  rfl

@[simp] theorem pushLineState_segStart (c : LexCtx) (v : Nat) :
    (pushLineState c v).segStart = c.segStart :=
  rfl

@[simp] theorem pushLineState_runs (c : LexCtx) (v : Nat) :
    (pushLineState c v).runs = c.runs :=
  rfl

@[simp] theorem pushLineState_lineState (c : LexCtx) (v : Nat) :
    (pushLineState c v).lineState = c.lineState :=
  rfl

@[simp] theorem pushLineState_visibleChars (c : LexCtx) (v : Nat) :
    (pushLineState c v).visibleChars = c.visibleChars :=
  rfl

@[simp] theorem pushLineState_visibleCharsBefore (c : LexCtx) (v : Nat) :
    (pushLineState c v).visibleCharsBefore = c.visibleCharsBefore :=
  rfl

@[simp] theorem pushLineState_indentCount (c : LexCtx) (v : Nat) :
    (pushLineState c v).indentCount = c.indentCount :=
  rfl

@[simp] theorem pushLineState_commentLevel (c : LexCtx) (v : Nat) :
    (pushLineState c v).commentLevel = c.commentLevel :=
  rfl

@[simp] theorem pushLineState_nestedState (c : LexCtx) (v : Nat) :
    (pushLineState c v).nestedState = c.nestedState :=
  rfl

@[simp] theorem pushLineState_xmlTagLevel (c : LexCtx) (v : Nat) :
    (pushLineState c v).xmlTagLevel = c.xmlTagLevel :=
  rfl

@[simp] theorem pushLineState_kwType (c : LexCtx) (v : Nat) :
    (pushLineState c v).kwType = c.kwType :=
  rfl

@[simp] theorem pushLineState_chBefore (c : LexCtx) (v : Nat) :
    (pushLineState c v).chBefore = c.chBefore :=
  rfl

@[simp] theorem pushLineState_chPrevNonWhite (c : LexCtx) (v : Nat) :
    (pushLineState c v).chPrevNonWhite = c.chPrevNonWhite :=
  rfl

@[simp] theorem pushLineState_stylePrevNonWhite (c : LexCtx) (v : Nat) :
    (pushLineState c v).stylePrevNonWhite = c.stylePrevNonWhite :=
  rfl

@[simp] theorem pushLineState_escOuter (c : LexCtx) (v : Nat) :
    (pushLineState c v).escOuter = c.escOuter :=
  rfl

@[simp] theorem pushLineState_escDigits (c : LexCtx) (v : Nat) :
    (pushLineState c v).escDigits = c.escDigits :=
  rfl

@[simp] theorem pushLineState_escBrace (c : LexCtx) (v : Nat) :
    (pushLineState c v).escBrace = c.escBrace :=
  rfl

@[simp] theorem pushLineState_fmtArgument (c : LexCtx) (v : Nat) :
    (pushLineState c v).fmtArgument = c.fmtArgument :=
  rfl

@[simp] theorem scalaLineEndBlock_pos (c : LexCtx) :
    (scalaLineEndBlock c).pos = c.pos :=
  by simp [scalaLineEndBlock]

@[simp] theorem scalaLineEndBlock_state (c : LexCtx) :
    (scalaLineEndBlock c).state = c.state :=
  by simp [scalaLineEndBlock]

@[simp] theorem scalaLineEndBlock_segStart (c : LexCtx) :
    (scalaLineEndBlock c).segStart = c.segStart :=
  by simp [scalaLineEndBlock]

@[simp] theorem scalaLineEndBlock_runs (c : LexCtx) :
    (scalaLineEndBlock c).runs = c.runs :=
  by simp [scalaLineEndBlock]

@[simp] theorem scalaLineEndBlock_nestedState (c : LexCtx) :
    (scalaLineEndBlock c).nestedState = c.nestedState :=
  by simp [scalaLineEndBlock]

@[simp] theorem scalaLineEndBlock_xmlTagLevel (c : LexCtx) :
    (scalaLineEndBlock c).xmlTagLevel = c.xmlTagLevel :=
  by simp [scalaLineEndBlock]

@[simp] theorem scalaLineEndBlock_commentLevel (c : LexCtx) :
    (scalaLineEndBlock c).commentLevel = c.commentLevel :=
  by simp [scalaLineEndBlock]

@[simp] theorem scalaLineEndBlock_chBefore (c : LexCtx) :
    (scalaLineEndBlock c).chBefore = c.chBefore :=
  by simp [scalaLineEndBlock]

@[simp] theorem scalaLineEndBlock_chPrevNonWhite (c : LexCtx) :
    (scalaLineEndBlock c).chPrevNonWhite = c.chPrevNonWhite :=
  by simp [scalaLineEndBlock]

@[simp] theorem scalaLineEndBlock_stylePrevNonWhite (c : LexCtx) :
    (scalaLineEndBlock c).stylePrevNonWhite = c.stylePrevNonWhite :=
  by simp [scalaLineEndBlock]

@[simp] theorem scalaLineEndBlock_escOuter (c : LexCtx) :
    (scalaLineEndBlock c).escOuter = c.escOuter :=
  by simp [scalaLineEndBlock]

@[simp] theorem scalaLineEndBlock_escDigits (c : LexCtx) :
    (scalaLineEndBlock c).escDigits = c.escDigits :=
  by simp [scalaLineEndBlock]

@[simp] theorem scalaLineEndBlock_escBrace (c : LexCtx) :
    (scalaLineEndBlock c).escBrace = c.escBrace :=
  by simp [scalaLineEndBlock]

@[simp] theorem scalaLineEndBlock_fmtArgument (c : LexCtx) :
    (scalaLineEndBlock c).fmtArgument = c.fmtArgument :=
  by simp [scalaLineEndBlock]

@[simp] theorem scalaLineEndBlock_lineState (c : LexCtx) :
    (scalaLineEndBlock c).lineState = 0 :=
  by simp [scalaLineEndBlock]

@[simp] theorem scalaLineEndBlock_visibleChars (c : LexCtx) :
    (scalaLineEndBlock c).visibleChars = 0 :=
  by simp [scalaLineEndBlock]

@[simp] theorem scalaLineEndBlock_visibleCharsBefore (c : LexCtx) :
    (scalaLineEndBlock c).visibleCharsBefore = 0 :=
  by simp [scalaLineEndBlock]

@[simp] theorem scalaLineEndBlock_indentCount (c : LexCtx) :
    (scalaLineEndBlock c).indentCount = 0 :=
  by simp [scalaLineEndBlock]

@[simp] theorem scalaLineEndBlock_kwType (c : LexCtx) :
    (scalaLineEndBlock c).kwType = 0 :=
  by simp [scalaLineEndBlock]

@[simp] theorem scalaFinish_state (doc : List Char) (e : Nat) (c : LexCtx) :
    (scalaFinish doc e c).state = c.state := by
  simp [scalaFinish]

@[simp] theorem scalaFinish_segStart (doc : List Char) (e : Nat) (c : LexCtx) :
    (scalaFinish doc e c).segStart = c.segStart := by
  simp [scalaFinish]

@[simp] theorem scalaFinish_runs (doc : List Char) (e : Nat) (c : LexCtx) :
    (scalaFinish doc e c).runs = c.runs := by
  simp [scalaFinish]

@[simp] theorem scalaFinish_nestedState (doc : List Char) (e : Nat) (c : LexCtx) :
    (scalaFinish doc e c).nestedState = c.nestedState := by
  simp [scalaFinish]

@[simp] theorem scalaFinish_xmlTagLevel (doc : List Char) (e : Nat) (c : LexCtx) :
    (scalaFinish doc e c).xmlTagLevel = c.xmlTagLevel := by
  simp [scalaFinish]

@[simp] theorem scalaFinish_commentLevel (doc : List Char) (e : Nat) (c : LexCtx) :
    (scalaFinish doc e c).commentLevel = c.commentLevel := by
  simp [scalaFinish]

@[simp] theorem scalaFinish_escOuter (doc : List Char) (e : Nat) (c : LexCtx) :
    (scalaFinish doc e c).escOuter = c.escOuter := by
  simp [scalaFinish]

@[simp] theorem scalaFinish_escDigits (doc : List Char) (e : Nat) (c : LexCtx) :
    (scalaFinish doc e c).escDigits = c.escDigits := by
  simp [scalaFinish]

@[simp] theorem scalaFinish_escBrace (doc : List Char) (e : Nat) (c : LexCtx) :
    (scalaFinish doc e c).escBrace = c.escBrace := by
  simp [scalaFinish]

@[simp] theorem scalaFinish_fmtArgument (doc : List Char) (e : Nat) (c : LexCtx) :
    (scalaFinish doc e c).fmtArgument = c.fmtArgument := by
  simp [scalaFinish]

@[simp] theorem scalaFinish_pos (doc : List Char) (e : Nat) (c : LexCtx) :
    (scalaFinish doc e c).pos = if c.pos < e then c.pos + 1 else c.pos := by
  simp [scalaFinish]

@[simp] theorem zigFinish_state (doc : List Char) (e : Nat) (c : LexCtx) :
    (zigFinish doc e c).state = c.state := by
  simp [zigFinish]

@[simp] theorem zigFinish_segStart (doc : List Char) (e : Nat) (c : LexCtx) :
    (zigFinish doc e c).segStart = c.segStart := by
  simp [zigFinish]

@[simp] theorem zigFinish_runs (doc : List Char) (e : Nat) (c : LexCtx) :
    (zigFinish doc e c).runs = c.runs := by
  simp [zigFinish]

@[simp] theorem zigFinish_nestedState (doc : List Char) (e : Nat) (c : LexCtx) :
    (zigFinish doc e c).nestedState = c.nestedState := by
  simp [zigFinish]

@[simp] theorem zigFinish_xmlTagLevel (doc : List Char) (e : Nat) (c : LexCtx) :
    (zigFinish doc e c).xmlTagLevel = c.xmlTagLevel := by
  simp [zigFinish]

@[simp] theorem zigFinish_commentLevel (doc : List Char) (e : Nat) (c : LexCtx) :
    (zigFinish doc e c).commentLevel = c.commentLevel := by
  simp [zigFinish]

@[simp] theorem zigFinish_escOuter (doc : List Char) (e : Nat) (c : LexCtx) :
    (zigFinish doc e c).escOuter = c.escOuter := by
  simp [zigFinish]

@[simp] theorem zigFinish_escDigits (doc : List Char) (e : Nat) (c : LexCtx) :
    (zigFinish doc e c).escDigits = c.escDigits := by
  simp [zigFinish]

@[simp] theorem zigFinish_escBrace (doc : List Char) (e : Nat) (c : LexCtx) :
    (zigFinish doc e c).escBrace = c.escBrace := by
  simp [zigFinish]

@[simp] theorem zigFinish_fmtArgument (doc : List Char) (e : Nat) (c : LexCtx) :
    (zigFinish doc e c).fmtArgument = c.fmtArgument := by
  simp [zigFinish]

@[simp] theorem zigFinish_indentCount (doc : List Char) (e : Nat) (c : LexCtx) :
    (zigFinish doc e c).indentCount = c.indentCount := by
  simp [zigFinish]

@[simp] theorem zigFinish_chBefore (doc : List Char) (e : Nat) (c : LexCtx) :
    (zigFinish doc e c).chBefore = c.chBefore := by
  simp [zigFinish]

@[simp] theorem zigFinish_chPrevNonWhite (doc : List Char) (e : Nat) (c : LexCtx) :
    (zigFinish doc e c).chPrevNonWhite = c.chPrevNonWhite := by
  simp [zigFinish]

@[simp] theorem zigFinish_stylePrevNonWhite (doc : List Char) (e : Nat) (c : LexCtx) :
    (zigFinish doc e c).stylePrevNonWhite = c.stylePrevNonWhite := by
  simp [zigFinish]

@[simp] theorem zigFinish_pos (doc : List Char) (e : Nat) (c : LexCtx) :
    (zigFinish doc e c).pos = if c.pos < e then c.pos + 1 else c.pos := by
  simp [zigFinish]

@[simp] theorem complete_pos (c : LexCtx) :
    (complete c).pos = c.pos :=
  by simp [complete]

@[simp] theorem complete_state (c : LexCtx) :
    (complete c).state = c.state :=
  by simp [complete]

@[simp] theorem complete_segStart (c : LexCtx) :
    (complete c).segStart = c.segStart :=
  by simp [complete]

@[simp] theorem complete_lineState (c : LexCtx) :
    (complete c).lineState = c.lineState :=
  by simp [complete]

@[simp] theorem complete_lineStates (c : LexCtx) :
    (complete c).lineStates = c.lineStates :=
  by simp [complete]

@[simp] theorem complete_visibleChars (c : LexCtx) :
    (complete c).visibleChars = c.visibleChars :=
  by simp [complete]

@[simp] theorem complete_visibleCharsBefore (c : LexCtx) :
    (complete c).visibleCharsBefore = c.visibleCharsBefore :=
  by simp [complete]

@[simp] theorem complete_indentCount (c : LexCtx) :
    (complete c).indentCount = c.indentCount :=
  by simp [complete]

@[simp] theorem complete_commentLevel (c : LexCtx) :
    (complete c).commentLevel = c.commentLevel :=
  by simp [complete]

@[simp] theorem complete_nestedState (c : LexCtx) :
    (complete c).nestedState = c.nestedState :=
  by simp [complete]

@[simp] theorem complete_xmlTagLevel (c : LexCtx) :
    (complete c).xmlTagLevel = c.xmlTagLevel :=
  by simp [complete]

@[simp] theorem complete_kwType (c : LexCtx) :
    (complete c).kwType = c.kwType :=
  by simp [complete]

@[simp] theorem complete_chBefore (c : LexCtx) :
    (complete c).chBefore = c.chBefore :=
  by simp [complete]

@[simp] theorem complete_chPrevNonWhite (c : LexCtx) :
    (complete c).chPrevNonWhite = c.chPrevNonWhite :=
  by simp [complete]

@[simp] theorem complete_stylePrevNonWhite (c : LexCtx) :
    (complete c).stylePrevNonWhite = c.stylePrevNonWhite :=
  by simp [complete]

@[simp] theorem complete_escOuter (c : LexCtx) :
    (complete c).escOuter = c.escOuter :=
  by simp [complete]

@[simp] theorem complete_escDigits (c : LexCtx) :
    (complete c).escDigits = c.escDigits :=
  by simp [complete]

@[simp] theorem complete_escBrace (c : LexCtx) :
    (complete c).escBrace = c.escBrace :=
  by simp [complete]

@[simp] theorem complete_fmtArgument (c : LexCtx) :
    (complete c).fmtArgument = c.fmtArgument :=
  by simp [complete]

@[simp] theorem flowCtx_ite (P : Prop) [Decidable P] (a b : LexFlow) :
    flowCtx (if P then a else b) = if P then flowCtx a else flowCtx b :=
  apply_ite flowCtx P a b

@[simp] theorem flowCtx_cont (c : LexCtx) : flowCtx (.cont c) = c := rfl

@[simp] theorem flowCtx_next (c : LexCtx) : flowCtx (.next c) = c := rfl


@[simp] theorem scalaKeywordKwType_pos (doc : List Char) (e : Nat) (s : String) (c : LexCtx) :
    (scalaKeywordKwType doc e s c).pos = c.pos := by
  simp [scalaKeywordKwType]

@[simp] theorem scalaKeywordKwType_state (doc : List Char) (e : Nat) (s : String) (c : LexCtx) :
    (scalaKeywordKwType doc e s c).state = c.state := by
  simp [scalaKeywordKwType]

@[simp] theorem scalaKeywordKwType_segStart (doc : List Char) (e : Nat) (s : String) (c : LexCtx) :
    (scalaKeywordKwType doc e s c).segStart = c.segStart := by
  simp [scalaKeywordKwType]

@[simp] theorem scalaKeywordKwType_runs (doc : List Char) (e : Nat) (s : String) (c : LexCtx) :
    (scalaKeywordKwType doc e s c).runs = c.runs := by
  simp [scalaKeywordKwType]

@[simp] theorem scalaKeywordKwType_lineStates (doc : List Char) (e : Nat) (s : String) (c : LexCtx) :
    (scalaKeywordKwType doc e s c).lineStates = c.lineStates := by
  simp [scalaKeywordKwType]

@[simp] theorem scalaKeywordKwType_visibleChars (doc : List Char) (e : Nat) (s : String) (c : LexCtx) :
    (scalaKeywordKwType doc e s c).visibleChars = c.visibleChars := by
  simp [scalaKeywordKwType]

@[simp] theorem scalaKeywordKwType_visibleCharsBefore (doc : List Char) (e : Nat) (s : String) (c : LexCtx) :
    (scalaKeywordKwType doc e s c).visibleCharsBefore = c.visibleCharsBefore := by
  simp [scalaKeywordKwType]

@[simp] theorem scalaKeywordKwType_indentCount (doc : List Char) (e : Nat) (s : String) (c : LexCtx) :
    (scalaKeywordKwType doc e s c).indentCount = c.indentCount := by
  simp [scalaKeywordKwType]

@[simp] theorem scalaKeywordKwType_commentLevel (doc : List Char) (e : Nat) (s : String) (c : LexCtx) :
    (scalaKeywordKwType doc e s c).commentLevel = c.commentLevel := by
  simp [scalaKeywordKwType]

@[simp] theorem scalaKeywordKwType_nestedState (doc : List Char) (e : Nat) (s : String) (c : LexCtx) :
    (scalaKeywordKwType doc e s c).nestedState = c.nestedState := by
  simp [scalaKeywordKwType]

@[simp] theorem scalaKeywordKwType_xmlTagLevel (doc : List Char) (e : Nat) (s : String) (c : LexCtx) :
    (scalaKeywordKwType doc e s c).xmlTagLevel = c.xmlTagLevel := by
  simp [scalaKeywordKwType]

@[simp] theorem scalaKeywordKwType_chBefore (doc : List Char) (e : Nat) (s : String) (c : LexCtx) :
    (scalaKeywordKwType doc e s c).chBefore = c.chBefore := by
  simp [scalaKeywordKwType]

@[simp] theorem scalaKeywordKwType_chPrevNonWhite (doc : List Char) (e : Nat) (s : String) (c : LexCtx) :
    (scalaKeywordKwType doc e s c).chPrevNonWhite = c.chPrevNonWhite := by
  simp [scalaKeywordKwType]

@[simp] theorem scalaKeywordKwType_escOuter (doc : List Char) (e : Nat) (s : String) (c : LexCtx) :
    (scalaKeywordKwType doc e s c).escOuter = c.escOuter := by
  simp [scalaKeywordKwType]

@[simp] theorem scalaKeywordKwType_escDigits (doc : List Char) (e : Nat) (s : String) (c : LexCtx) :
    (scalaKeywordKwType doc e s c).escDigits = c.escDigits := by
  simp [scalaKeywordKwType]

@[simp] theorem scalaKeywordKwType_escBrace (doc : List Char) (e : Nat) (s : String) (c : LexCtx) :
    (scalaKeywordKwType doc e s c).escBrace = c.escBrace := by
  simp [scalaKeywordKwType]

@[simp] theorem scalaKeywordKwType_fmtArgument (doc : List Char) (e : Nat) (s : String) (c : LexCtx) :
    (scalaKeywordKwType doc e s c).fmtArgument = c.fmtArgument := by
  simp [scalaKeywordKwType]

@[simp] theorem scalaClassifyIdent_pos (doc : List Char) (e : Nat) (kwK kwC kwT : List String) (c : LexCtx) :
    (scalaClassifyIdent doc e kwK kwC kwT c).pos = c.pos := by
  simp [scalaClassifyIdent]

@[simp] theorem scalaClassifyIdent_segStart (doc : List Char) (e : Nat) (kwK kwC kwT : List String) (c : LexCtx) :
    (scalaClassifyIdent doc e kwK kwC kwT c).segStart = c.segStart := by
  simp [scalaClassifyIdent]

@[simp] theorem scalaClassifyIdent_runs (doc : List Char) (e : Nat) (kwK kwC kwT : List String) (c : LexCtx) :
    (scalaClassifyIdent doc e kwK kwC kwT c).runs = c.runs := by
  simp [scalaClassifyIdent]

@[simp] theorem scalaClassifyIdent_lineStates (doc : List Char) (e : Nat) (kwK kwC kwT : List String) (c : LexCtx) :
    (scalaClassifyIdent doc e kwK kwC kwT c).lineStates = c.lineStates := by
  simp [scalaClassifyIdent]

@[simp] theorem scalaClassifyIdent_visibleChars (doc : List Char) (e : Nat) (kwK kwC kwT : List String) (c : LexCtx) :
    (scalaClassifyIdent doc e kwK kwC kwT c).visibleChars = c.visibleChars := by
  simp [scalaClassifyIdent]

@[simp] theorem scalaClassifyIdent_visibleCharsBefore (doc : List Char) (e : Nat) (kwK kwC kwT : List String) (c : LexCtx) :
    (scalaClassifyIdent doc e kwK kwC kwT c).visibleCharsBefore = c.visibleCharsBefore := by
  simp [scalaClassifyIdent]

@[simp] theorem scalaClassifyIdent_indentCount (doc : List Char) (e : Nat) (kwK kwC kwT : List String) (c : LexCtx) :
    (scalaClassifyIdent doc e kwK kwC kwT c).indentCount = c.indentCount := by
  simp [scalaClassifyIdent]

@[simp] theorem scalaClassifyIdent_commentLevel (doc : List Char) (e : Nat) (kwK kwC kwT : List String) (c : LexCtx) :
    (scalaClassifyIdent doc e kwK kwC kwT c).commentLevel = c.commentLevel := by
  simp [scalaClassifyIdent]

@[simp] theorem scalaClassifyIdent_nestedState (doc : List Char) (e : Nat) (kwK kwC kwT : List String) (c : LexCtx) :
    (scalaClassifyIdent doc e kwK kwC kwT c).nestedState = c.nestedState := by
  simp [scalaClassifyIdent]

@[simp] theorem scalaClassifyIdent_xmlTagLevel (doc : List Char) (e : Nat) (kwK kwC kwT : List String) (c : LexCtx) :
    (scalaClassifyIdent doc e kwK kwC kwT c).xmlTagLevel = c.xmlTagLevel := by
  simp [scalaClassifyIdent]

@[simp] theorem scalaClassifyIdent_chBefore (doc : List Char) (e : Nat) (kwK kwC kwT : List String) (c : LexCtx) :
    (scalaClassifyIdent doc e kwK kwC kwT c).chBefore = c.chBefore := by
  simp [scalaClassifyIdent]

@[simp] theorem scalaClassifyIdent_chPrevNonWhite (doc : List Char) (e : Nat) (kwK kwC kwT : List String) (c : LexCtx) :
    (scalaClassifyIdent doc e kwK kwC kwT c).chPrevNonWhite = c.chPrevNonWhite := by
  simp [scalaClassifyIdent]

@[simp] theorem scalaClassifyIdent_escOuter (doc : List Char) (e : Nat) (kwK kwC kwT : List String) (c : LexCtx) :
    (scalaClassifyIdent doc e kwK kwC kwT c).escOuter = c.escOuter := by
  simp [scalaClassifyIdent]

@[simp] theorem scalaClassifyIdent_escDigits (doc : List Char) (e : Nat) (kwK kwC kwT : List String) (c : LexCtx) :
    (scalaClassifyIdent doc e kwK kwC kwT c).escDigits = c.escDigits := by
  simp [scalaClassifyIdent]

@[simp] theorem scalaClassifyIdent_escBrace (doc : List Char) (e : Nat) (kwK kwC kwT : List String) (c : LexCtx) :
    (scalaClassifyIdent doc e kwK kwC kwT c).escBrace = c.escBrace := by
  simp [scalaClassifyIdent]

@[simp] theorem scalaClassifyIdent_fmtArgument (doc : List Char) (e : Nat) (kwK kwC kwT : List String) (c : LexCtx) :
    (scalaClassifyIdent doc e kwK kwC kwT c).fmtArgument = c.fmtArgument := by
  simp [scalaClassifyIdent]

/-! ### C2: pop safety of the context stack -/

theorem scalaCaseIdent_nested (doc : List Char) (endPos : Nat) (kwK kwC kwT : List String)
    (c : LexCtx) :
    (flowCtx (scalaCaseIdent doc endPos kwK kwC kwT c)).nestedState = c.nestedState := by
  unfold scalaCaseIdent
  repeat' split
  all_goals simp [scalaClassifyIdent, scalaKeywordKwType]

theorem scalaCaseCommentBlock_nested (doc : List Char) (endPos : Nat) (c : LexCtx) :
    (flowCtx (scalaCaseCommentBlock doc endPos c)).nestedState = c.nestedState := by
  unfold scalaCaseCommentBlock
  repeat' split
  all_goals simp

theorem scalaCaseString_nested (doc : List Char) (endPos : Nat) (c : LexCtx) :
    (flowCtx (scalaCaseString doc endPos c)).nestedState = c.nestedState
    ∨ ((flowCtx (scalaCaseString doc endPos c)).nestedState = c.state :: c.nestedState
        ∧ (flowCtx (scalaCaseString doc endPos c)).state = SCE_SCALA_OPERATOR2) := by
  unfold scalaCaseString
  dsimp only
  repeat' split
  all_goals simp_all

theorem scalaCaseXml_nested (doc : List Char) (endPos : Nat) (c : LexCtx) :
    (flowCtx (scalaCaseXml doc endPos c)).nestedState = c.nestedState
    ∨ ((flowCtx (scalaCaseXml doc endPos c)).nestedState = c.state :: c.nestedState
        ∧ (flowCtx (scalaCaseXml doc endPos c)).state = SCE_SCALA_OPERATOR2) := by
  unfold scalaCaseXml
  dsimp only
  repeat' split
  all_goals simp_all

theorem scalaCaseArm_nested (doc : List Char) (endPos : Nat) (kwK kwC kwT : List String)
    (c : LexCtx) :
    (flowCtx (scalaCaseArm doc endPos kwK kwC kwT c)).nestedState = c.nestedState
    ∨ ((flowCtx (scalaCaseArm doc endPos kwK kwC kwT c)).nestedState = c.state :: c.nestedState
        ∧ (flowCtx (scalaCaseArm doc endPos kwK kwC kwT c)).state = SCE_SCALA_OPERATOR2) := by
  unfold scalaCaseArm
  dsimp only
  repeat' split
  all_goals first
    | (left; exact scalaCaseIdent_nested doc endPos kwK kwC kwT c)
    | (left; exact scalaCaseCommentBlock_nested doc endPos c)
    | exact scalaCaseString_nested doc endPos c
    | exact scalaCaseXml_nested doc endPos c
    | (left; simp)

theorem scalaEntryGraphic_nested_empty (doc : List Char) (endPos : Nat) (c : LexCtx)
    (h : c.nestedState = []) :
    (flowCtx (scalaEntryGraphic doc endPos c)).nestedState = [] := by
  unfold scalaEntryGraphic
  dsimp only
  repeat' split
  all_goals simp_all

theorem scalaEntry_nested_empty (doc : List Char) (endPos : Nat) (c : LexCtx)
    (h : c.nestedState = []) :
    (flowCtx (scalaEntry doc endPos c)).nestedState = [] := by
  unfold scalaEntry
  dsimp only
  repeat' split
  all_goals first
    | exact scalaEntryGraphic_nested_empty doc endPos c h
    | simp_all

theorem scalaFinish_nested2 (doc : List Char) (endPos : Nat) (c : LexCtx) :
    (scalaFinish doc endPos c).nestedState = c.nestedState := by
  simp

theorem scalaStep_nested_empty (doc : List Char) (endPos : Nat) (kwK kwC kwT : List String)
    (c : LexCtx) (h : c.nestedState = []) :
    (scalaStep doc endPos kwK kwC kwT c).nestedState = []
    ∨ ∃ s, (scalaStep doc endPos kwK kwC kwT c).nestedState = [s] := by
  unfold scalaStep
  have harm := scalaCaseArm_nested doc endPos kwK kwC kwT c
  rcases he : scalaCaseArm doc endPos kwK kwC kwT c with c1 | c1
  · rw [he] at harm
    simp only [flowCtx_cont] at harm
    rcases harm with h1 | ⟨h1, _⟩
    · left
      simpa [h1] using h
    · right
      exact ⟨c.state, by simp [h1, h]⟩
  · rw [he] at harm
    simp only [flowCtx_next] at harm
    rcases harm with h1 | ⟨h1, h2⟩
    · have hempty : c1.nestedState = [] := by rw [h1, h]
      by_cases hd : c1.state = SCE_SCALA_DEFAULT
      · have hent := scalaEntry_nested_empty doc endPos c1 hempty
        rcases hee : scalaEntry doc endPos c1 with c2 | c2
        · rw [hee] at hent
          simp only [flowCtx_cont] at hent
          left
          simp [hd, hee, hent]
        · rw [hee] at hent
          simp only [flowCtx_next] at hent
          left
          simp [hd, hee, hent]
      · left
        simp [hd, hempty]
    · right
      refine ⟨c.state, ?_⟩
      have hd : ¬ c1.state = SCE_SCALA_DEFAULT := by
        rw [h2]
        decide
      simp [hd, h1, h]

theorem scalaFinish_lineState_noEnd (doc : List Char) (e : Nat) (c : LexCtx)
    (h : atLineEndB doc e c.pos = false) :
    (scalaFinish doc e c).lineState = c.lineState := by
  unfold scalaFinish
  dsimp only
  repeat' split
  all_goals simp_all

theorem scalaStep_closeBrace_classify (doc : List Char) (endPos : Nat)
    (kwK kwC kwT : List String) (c : LexCtx)
    (hst : c.state = SCE_SCALA_DEFAULT) (hns : c.nestedState = [])
    (hch : chAt doc c.pos = '}') (hle : atLineEndB doc endPos c.pos = false)
    (hls : c.lineState = 0) :
    (scalaStep doc endPos kwK kwC kwT c).state = SCE_SCALA_OPERATOR
    ∧ (scalaStep doc endPos kwK kwC kwT c).segStart = c.pos
    ∧ ((scalaStep doc endPos kwK kwC kwT c).lineState.testBit 3 = true ↔ c.visibleChars = 0)
    ∧ (scalaStep doc endPos kwK kwC kwT c).nestedState = [] := by
  by_cases hv : c.visibleChars = 0
  all_goals
    simp +decide only [scalaStep, scalaCaseArm, scalaEntry, scalaEntryGraphic, hst,
      hns, hch, hls, hle, hv, reduceIte, SCE_SCALA_DEFAULT, SCE_SCALA_OPERATOR,
      SCE_SCALA_OPERATOR2, SCE_SCALA_OPERATOR_PF, SCE_SCALA_NUMBER, SCE_SCALA_IDENTIFIER,
      setState_state, setState_segStart, setState_nestedState, setState_lineState,
      setState_visibleChars, setState_pos, changeState_state, changeState_nestedState,
      changeState_lineState, changeState_pos, changeState_segStart, changeState_visibleChars,
      PyLineStateMaskCloseBrace, false_and, true_and, and_false, and_true, or_false,
      false_or, not_true, not_false_iff, Bool.true_and, Bool.false_and, IsNumberStart, IsADigit,
      decide_True, decide_False, Bool.and_false, Bool.and_true, Bool.or_false, Bool.false_or]
  all_goals
    constructor
    · simp
    · refine ⟨by simp, ?_, by simp [hns]⟩
      rw [scalaFinish_lineState_noEnd]
      · simp_all +decide
      · simp [hle]

/-- C2: pop safety of the context stack.  For every input and cursor
context whose context stack is empty, one step of the Scala loop never
pops: the stack stays empty or receives exactly one pushed entry.  And a
closing brace reached in the default state with the empty stack is
classified as a plain operator (the new pending run starts at the brace
with the operator style), the stack stays empty, and the line state records
the fold dedent hint bit exactly when the brace is the first visible
character of its line. -/
theorem scala_pop_only_nonempty (doc : List Char) (endPos : Nat)
    (kwK kwC kwT : List String) (c : LexCtx) (hns : c.nestedState = []) :
    ((scalaStep doc endPos kwK kwC kwT c).nestedState = []
      ∨ ∃ s, (scalaStep doc endPos kwK kwC kwT c).nestedState = [s])
    ∧ (c.state = SCE_SCALA_DEFAULT → chAt doc c.pos = '}' →
        atLineEndB doc endPos c.pos = false → c.lineState = 0 →
        (scalaStep doc endPos kwK kwC kwT c).state = SCE_SCALA_OPERATOR
        ∧ (scalaStep doc endPos kwK kwC kwT c).segStart = c.pos
        ∧ ((scalaStep doc endPos kwK kwC kwT c).lineState.testBit 3 = true ↔ c.visibleChars = 0)
        ∧ (scalaStep doc endPos kwK kwC kwT c).nestedState = []) :=
  ⟨scalaStep_nested_empty doc endPos kwK kwC kwT c hns,
    fun hst hch hle hls =>
      scalaStep_closeBrace_classify doc endPos kwK kwC kwT c hst hns hch hle hls⟩

theorem scala_pop_only_nonempty_witness :
    (scalaStep c2doc 2 [] [] [] (initCtx 0 SCE_SCALA_DEFAULT)).state = SCE_SCALA_OPERATOR
    ∧ (scalaStep c2doc 2 [] [] [] (initCtx 0 SCE_SCALA_DEFAULT)).lineState.testBit 3 = true
    ∧ (scalaStep c2doc 2 [] [] [] (initCtx 0 SCE_SCALA_DEFAULT)).nestedState = [] := by
  have h := scala_pop_only_nonempty c2doc 2 [] [] [] (initCtx 0 SCE_SCALA_DEFAULT) (by rfl)
  have h2 := h.2 (by rfl) (by decide) (by decide) (by rfl)
  exact ⟨h2.1, h2.2.2.1.mpr (by rfl), h2.2.2.2⟩
theorem zigStep_escape_start (doc : List Char) (endPos : Nat) (kwK kwT : List String)
    (c : LexCtx) (hst : c.state = SCE_ZIG_CHARACTER ∨ c.state = SCE_ZIG_STRING)
    (hls : atLineStartB doc c.pos = false) (hch : chAt doc c.pos = '\\')
    (hpos : c.pos + 2 < endPos) :
    (zigStep doc endPos kwK kwT c).escOuter = c.state
    ∧ (zigStep doc endPos kwK kwT c).state = SCE_ZIG_ESCAPECHAR
    ∧ (zigStep doc endPos kwK kwT c).escDigits =
        (if chAt doc (c.pos + 1) = 'u' ∧ chAt doc (c.pos + 2) = '{' then 7
          else if chAt doc (c.pos + 1) = 'x' then 3
          else if chAt doc (c.pos + 1) = 'u' then 5 else 1)
    ∧ ((zigStep doc endPos kwK kwT c).escBrace = true
        ↔ (chAt doc (c.pos + 1) = 'u' ∧ chAt doc (c.pos + 2) = '{')) := by
  have h1 : c.pos < endPos := by omega
  have h2 : c.pos + 1 < endPos := by omega
  rcases hst with hst | hst
  all_goals
    by_cases hu : chAt doc (c.pos + 1) = 'u' ∧ chAt doc (c.pos + 2) = '{'
  all_goals
    simp +decide only [zigStep, zigCaseArm, zigCaseString, hst, hls, hch, h1, h2, reduceIte,
      SCE_ZIG_CHARACTER, SCE_ZIG_STRING, SCE_ZIG_MULTISTRING, SCE_ZIG_ESCAPECHAR,
      SCE_ZIG_OPERATOR, SCE_ZIG_NUMBER, SCE_ZIG_IDENTIFIER, SCE_ZIG_BUILTIN_FUNCTION,
      SCE_ZIG_PLACEHOLDER, SCE_ZIG_COMMENTLINE, SCE_ZIG_COMMENTLINEDOC, SCE_ZIG_COMMENTLINETOP,
      SCE_ZIG_DEFAULT, forward_pos, setState_pos, setState_state, setState_escOuter,
      setState_escDigits, setState_escBrace, forward_state, forward_escOuter, forward_escDigits,
      forward_escBrace, false_and, true_and, and_false, and_true, or_false, false_or, not_true,
      not_false_iff]
  all_goals
    first
    | (obtain ⟨hu1, hu2⟩ := hu
       simp_all +decide)
    | simp_all +decide

theorem zigStep_escape_end (doc : List Char) (endPos : Nat) (kwK kwT : List String)
    (c : LexCtx) (hst : c.state = SCE_ZIG_ESCAPECHAR) :
    ((c.escDigits - 1 ≤ 0 ∨ IsHexDigit (chAt doc c.pos) = false) →
      (zigStep doc endPos kwK kwT c).state = c.escOuter)
    ∧ (¬ (c.escDigits - 1 ≤ 0 ∨ IsHexDigit (chAt doc c.pos) = false) →
      (zigStep doc endPos kwK kwT c).state = SCE_ZIG_ESCAPECHAR
      ∧ (zigStep doc endPos kwK kwT c).escDigits = c.escDigits - 1) := by
  constructor
  all_goals intro hend
  · have hend2 : (c.escDigits - 1 ≤ 0 ∨ ¬ IsHexDigit (chAt doc c.pos) = true) := by
      rcases hend with h | h
      · exact Or.inl h
      · exact Or.inr (by simp [h])
    simp +decide only [zigStep, zigCaseArm, hst, reduceIte, SCE_ZIG_ESCAPECHAR, SCE_ZIG_OPERATOR,
      SCE_ZIG_NUMBER, SCE_ZIG_IDENTIFIER, SCE_ZIG_BUILTIN_FUNCTION, SCE_ZIG_CHARACTER,
      SCE_ZIG_STRING, SCE_ZIG_MULTISTRING, SCE_ZIG_PLACEHOLDER, SCE_ZIG_COMMENTLINE,
      SCE_ZIG_COMMENTLINEDOC, SCE_ZIG_COMMENTLINETOP]
    rw [if_pos]
    · simp
    · simpa using hend2
  · have hend2 : ¬ (c.escDigits - 1 ≤ 0 ∨ ¬ IsHexDigit (chAt doc c.pos) = true) := by
      intro hcon
      apply hend
      rcases hcon with h | h
      · exact Or.inl h
      · exact Or.inr (by simpa using h)
    simp +decide only [zigStep, zigCaseArm, hst, reduceIte, SCE_ZIG_ESCAPECHAR, SCE_ZIG_OPERATOR,
      SCE_ZIG_NUMBER, SCE_ZIG_IDENTIFIER, SCE_ZIG_BUILTIN_FUNCTION, SCE_ZIG_CHARACTER,
      SCE_ZIG_STRING, SCE_ZIG_MULTISTRING, SCE_ZIG_PLACEHOLDER, SCE_ZIG_COMMENTLINE,
      SCE_ZIG_COMMENTLINEDOC, SCE_ZIG_COMMENTLINETOP]
    rw [if_neg]
    · simp +decide
    · simpa using hend2

theorem scalaStep_escape_start (doc : List Char) (endPos : Nat) (kwK kwC kwT : List String)
    (c : LexCtx) (hst : c.state ∈ scalaStringArmStates)
    (hls : atLineStartB doc c.pos = false) (hch : chAt doc c.pos = '\\')
    (hNEol : IsEOLChar (chAt doc (c.pos + 1)) = false) :
    (scalaStep doc endPos kwK kwC kwT c).state = SCE_SCALA_ESCAPECHAR
    ∧ (scalaStep doc endPos kwK kwC kwT c).escOuter = c.state
    ∧ (scalaStep doc endPos kwK kwC kwT c).escDigits =
        (if chAt doc (c.pos + 1) = 'u' then 5 else 1) := by
  simp only [scalaStringArmStates, List.mem_cons, List.not_mem_nil, or_false] at hst
  rcases hst with hst | hst | hst | hst | hst | hst | hst | hst
  all_goals
    simp +decide only [scalaStep, scalaCaseArm, scalaCaseString, hst, hls, hch, hNEol, reduceIte,
      SCE_SCALA_BACKTICKS, SCE_SCALA_CHARACTER, SCE_SCALA_XML_STRING_SQ, SCE_SCALA_XML_STRING_DQ,
      SCE_SCALA_STRING, SCE_SCALA_INTERPOLATED_STRING, SCE_SCALA_TRIPLE_STRING,
      SCE_SCALA_TRIPLE_INTERPOLATED_STRING, SCE_SCALA_ESCAPECHAR, SCE_SCALA_DEFAULT,
      SCE_SCALA_OPERATOR, SCE_SCALA_OPERATOR2, SCE_SCALA_OPERATOR_PF, SCE_SCALA_NUMBER,
      SCE_SCALA_IDENTIFIER, SCE_SCALA_ANNOTATION, SCE_SCALA_SYMBOL, SCE_SCALA_XML_TAG,
      SCE_SCALA_XML_ATTRIBUTE, SCE_SCALA_COMMENTLINE, SCE_SCALA_COMMENTBLOCK,
      SCE_SCALA_COMMENTBLOCKDOC, SCE_SCALA_COMMENTTAG, SCE_SCALA_XML_TEXT, SCE_SCALA_XML_OTHER,
      IsSingleLineString, IsInterpolatedString, GetStringQuote, false_and, true_and, and_false,
      and_true, or_false, false_or, not_true, not_false_iff]
  all_goals by_cases hu : chAt doc (c.pos + 1) = 'u'
  all_goals simp_all +decide

/-- C4 counterexample: the claim asserts that a hex-byte introducer "x"
expects 3 digits in the escape trackers it cites, but the EscapeSequence of
LexScala.cxx assigns 5 for "u" and 1 for everything else: scanning the
buffer with a backslash-x escape inside a string leaves the Scala escape
tracker with digit count 1, not 3. -/
theorem scala_escape_x_counterexample :
    (scalaRunN c4docScala 6 [] [] [] 2 (initCtx 0 SCE_SCALA_DEFAULT)).state = SCE_SCALA_ESCAPECHAR
    ∧ (scalaRunN c4docScala 6 [] [] [] 2 (initCtx 0 SCE_SCALA_DEFAULT)).escOuter = SCE_SCALA_STRING
    ∧ (scalaRunN c4docScala 6 [] [] [] 2 (initCtx 0 SCE_SCALA_DEFAULT)).escDigits = 1
    ∧ (scalaRunN c4docScala 6 [] [] [] 2 (initCtx 0 SCE_SCALA_DEFAULT)).escDigits ≠ 3 := by
  decide

/-- C4 amended: escape-sequence digit rules as implemented.  In the Zig
lexer an escape started inside a character or string literal derives the
expected count from the introducer: a brace-delimited unicode escape (a "u"
introducer followed by an opening brace) sets 7 digits and the brace flag,
a "u" introducer 5, an "x" introducer 3, anything else exactly 1; the
escape ends when the decremented counter reaches zero or a non-hex
character appears early, returning to the recorded outer state, and
otherwise continues with the counter decremented.  In the Scala lexer the
tracker assigns 5 digits for a "u" introducer and exactly 1 for any other
introducer (including "x"), recording the string state as the outer
state. -/
theorem zig_scala_escape_rules (doc : List Char) (endPos : Nat)
    (kwK kwC kwT kwZK kwZT : List String) (c : LexCtx) :
    ((c.state = SCE_ZIG_CHARACTER ∨ c.state = SCE_ZIG_STRING) →
      atLineStartB doc c.pos = false → chAt doc c.pos = '\\' → c.pos + 2 < endPos →
      (zigStep doc endPos kwZK kwZT c).escOuter = c.state
      ∧ (zigStep doc endPos kwZK kwZT c).state = SCE_ZIG_ESCAPECHAR
      ∧ (zigStep doc endPos kwZK kwZT c).escDigits =
          (if chAt doc (c.pos + 1) = 'u' ∧ chAt doc (c.pos + 2) = '{' then 7
            else if chAt doc (c.pos + 1) = 'x' then 3
            else if chAt doc (c.pos + 1) = 'u' then 5 else 1)
      ∧ ((zigStep doc endPos kwZK kwZT c).escBrace = true
          ↔ (chAt doc (c.pos + 1) = 'u' ∧ chAt doc (c.pos + 2) = '{')))
    ∧ (c.state = SCE_ZIG_ESCAPECHAR →
      ((c.escDigits - 1 ≤ 0 ∨ IsHexDigit (chAt doc c.pos) = false) →
        (zigStep doc endPos kwZK kwZT c).state = c.escOuter)
      ∧ (¬ (c.escDigits - 1 ≤ 0 ∨ IsHexDigit (chAt doc c.pos) = false) →
        (zigStep doc endPos kwZK kwZT c).state = SCE_ZIG_ESCAPECHAR
        ∧ (zigStep doc endPos kwZK kwZT c).escDigits = c.escDigits - 1))
    ∧ (c.state ∈ scalaStringArmStates →
      atLineStartB doc c.pos = false → chAt doc c.pos = '\\' →
      IsEOLChar (chAt doc (c.pos + 1)) = false →
      (scalaStep doc endPos kwK kwC kwT c).state = SCE_SCALA_ESCAPECHAR
      ∧ (scalaStep doc endPos kwK kwC kwT c).escOuter = c.state
      ∧ (scalaStep doc endPos kwK kwC kwT c).escDigits =
          (if chAt doc (c.pos + 1) = 'u' then 5 else 1)) :=
  ⟨fun hst hls hch hpos => zigStep_escape_start doc endPos kwZK kwZT c hst hls hch hpos,
    fun hst => zigStep_escape_end doc endPos kwZK kwZT c hst,
    fun hst hls hch hNEol => scalaStep_escape_start doc endPos kwK kwC kwT c hst hls hch hNEol⟩

theorem zig_scala_escape_rules_witness :
    (zigStep ['"', '\\', 'x', '1', '"'] 5 [] []
        (zigRunN ['"', '\\', 'x', '1', '"'] 5 [] [] 1 (initCtx 0 SCE_ZIG_DEFAULT))).escDigits = 3
    ∧ (zigStep ['"', '\\', 'x', '1', '"'] 5 [] []
        (zigRunN ['"', '\\', 'x', '1', '"'] 5 [] [] 1 (initCtx 0 SCE_ZIG_DEFAULT))).state
        = SCE_ZIG_ESCAPECHAR := by
  have h := (zig_scala_escape_rules ['"', '\\', 'x', '1', '"'] 5 [] [] [] [] []
      (zigRunN ['"', '\\', 'x', '1', '"'] 5 [] [] 1 (initCtx 0 SCE_ZIG_DEFAULT))).1
    (by decide) (by decide) (by decide) (by decide)
  refine ⟨?_, h.2.1⟩
  rw [h.2.2.1]
  decide
theorem scalaCaseArm_reset (doc : List Char) (endPos : Nat) (kwK kwC kwT : List String)
    (c : LexCtx) (hst : c.state ∈ scalaStringArmStates) (hsl : IsSingleLineString c.state = true)
    (hls : atLineStartB doc c.pos = true) :
    scalaCaseArm doc endPos kwK kwC kwT c = .next (setState c SCE_SCALA_DEFAULT) := by
  simp only [scalaStringArmStates, List.mem_cons, List.not_mem_nil, or_false] at hst
  rcases hst with hst | hst | hst | hst | hst | hst | hst | hst
  all_goals
    simp_all +decide [scalaCaseArm, scalaCaseString, SCE_SCALA_BACKTICKS, SCE_SCALA_CHARACTER,
      SCE_SCALA_XML_STRING_SQ, SCE_SCALA_XML_STRING_DQ, SCE_SCALA_STRING,
      SCE_SCALA_INTERPOLATED_STRING, SCE_SCALA_TRIPLE_STRING,
      SCE_SCALA_TRIPLE_INTERPOLATED_STRING, SCE_SCALA_DEFAULT, SCE_SCALA_OPERATOR,
      SCE_SCALA_OPERATOR2, SCE_SCALA_OPERATOR_PF, SCE_SCALA_NUMBER, SCE_SCALA_IDENTIFIER,
      SCE_SCALA_ANNOTATION, SCE_SCALA_SYMBOL, SCE_SCALA_XML_TAG, SCE_SCALA_XML_ATTRIBUTE,
      SCE_SCALA_COMMENTLINE, SCE_SCALA_COMMENTBLOCK, SCE_SCALA_COMMENTBLOCKDOC,
      SCE_SCALA_COMMENTTAG, SCE_SCALA_XML_TEXT, SCE_SCALA_XML_OTHER, SCE_SCALA_ESCAPECHAR,
      IsSingleLineString]

theorem scalaCaseArm_default (doc : List Char) (endPos : Nat) (kwK kwC kwT : List String)
    (c : LexCtx) (hst : c.state = SCE_SCALA_DEFAULT) :
    scalaCaseArm doc endPos kwK kwC kwT c = .next c := by
  simp +decide only [scalaCaseArm, hst, SCE_SCALA_DEFAULT, SCE_SCALA_OPERATOR,
    SCE_SCALA_OPERATOR2, SCE_SCALA_OPERATOR_PF, SCE_SCALA_NUMBER, SCE_SCALA_IDENTIFIER,
    SCE_SCALA_ANNOTATION, SCE_SCALA_SYMBOL, SCE_SCALA_XML_TAG, SCE_SCALA_XML_ATTRIBUTE,
    SCE_SCALA_COMMENTLINE, SCE_SCALA_COMMENTBLOCK, SCE_SCALA_COMMENTBLOCKDOC,
    SCE_SCALA_COMMENTTAG, SCE_SCALA_XML_TEXT, SCE_SCALA_XML_OTHER, SCE_SCALA_ESCAPECHAR,
    SCE_SCALA_BACKTICKS, SCE_SCALA_CHARACTER, SCE_SCALA_XML_STRING_SQ, SCE_SCALA_XML_STRING_DQ,
    SCE_SCALA_STRING, SCE_SCALA_INTERPOLATED_STRING, SCE_SCALA_TRIPLE_STRING,
    SCE_SCALA_TRIPLE_INTERPOLATED_STRING, reduceIte]

theorem scalaStep_lineStart_reset (doc : List Char) (endPos : Nat) (kwK kwC kwT : List String)
    (c : LexCtx) (hst : c.state ∈ scalaStringArmStates) (hsl : IsSingleLineString c.state = true)
    (hls : atLineStartB doc c.pos = true) :
    scalaStep doc endPos kwK kwC kwT c
      = scalaStep doc endPos kwK kwC kwT (setState c SCE_SCALA_DEFAULT) := by
  unfold scalaStep
  rw [scalaCaseArm_reset doc endPos kwK kwC kwT c hst hsl hls,
    scalaCaseArm_default doc endPos kwK kwC kwT (setState c SCE_SCALA_DEFAULT) (by simp)]

theorem scalaStep_triple_persists (doc : List Char) (endPos : Nat) (kwK kwC kwT : List String)
    (c : LexCtx) (hst : c.state = SCE_SCALA_TRIPLE_STRING ∨
      c.state = SCE_SCALA_TRIPLE_INTERPOLATED_STRING)
    (hch1 : chAt doc c.pos ≠ '\\') (hch2 : chAt doc c.pos ≠ '$') (hch3 : chAt doc c.pos ≠ '"') :
    (scalaStep doc endPos kwK kwC kwT c).state = c.state := by
  rcases hst with hst | hst
  all_goals
    simp_all +decide [scalaStep, scalaCaseArm, scalaCaseString, SCE_SCALA_TRIPLE_STRING,
      SCE_SCALA_TRIPLE_INTERPOLATED_STRING, SCE_SCALA_DEFAULT, SCE_SCALA_OPERATOR,
      SCE_SCALA_OPERATOR2, SCE_SCALA_OPERATOR_PF, SCE_SCALA_NUMBER, SCE_SCALA_IDENTIFIER,
      SCE_SCALA_ANNOTATION, SCE_SCALA_SYMBOL, SCE_SCALA_XML_TAG, SCE_SCALA_XML_ATTRIBUTE,
      SCE_SCALA_COMMENTLINE, SCE_SCALA_COMMENTBLOCK, SCE_SCALA_COMMENTBLOCKDOC,
      SCE_SCALA_COMMENTTAG, SCE_SCALA_XML_TEXT, SCE_SCALA_XML_OTHER, SCE_SCALA_ESCAPECHAR,
      SCE_SCALA_BACKTICKS, SCE_SCALA_CHARACTER, SCE_SCALA_XML_STRING_SQ, SCE_SCALA_XML_STRING_DQ,
      SCE_SCALA_STRING, SCE_SCALA_INTERPOLATED_STRING, IsSingleLineString, IsInterpolatedString,
      GetStringQuote]

theorem zigCaseArm_reset (doc : List Char) (endPos : Nat) (kwK kwT : List String)
    (c : LexCtx) (hst : c.state ∈ zigStringArmStates)
    (hls : atLineStartB doc c.pos = true) :
    zigCaseArm doc endPos kwK kwT c = .next (setState c SCE_ZIG_DEFAULT) := by
  simp only [zigStringArmStates, List.mem_cons, List.not_mem_nil, or_false] at hst
  rcases hst with hst | hst | hst
  all_goals
    simp_all +decide [zigCaseArm, zigCaseString, SCE_ZIG_CHARACTER, SCE_ZIG_STRING,
      SCE_ZIG_MULTISTRING, SCE_ZIG_DEFAULT, SCE_ZIG_OPERATOR, SCE_ZIG_NUMBER,
      SCE_ZIG_IDENTIFIER, SCE_ZIG_BUILTIN_FUNCTION, SCE_ZIG_ESCAPECHAR, SCE_ZIG_PLACEHOLDER,
      SCE_ZIG_COMMENTLINE, SCE_ZIG_COMMENTLINEDOC, SCE_ZIG_COMMENTLINETOP]

theorem zigCaseArm_default (doc : List Char) (endPos : Nat) (kwK kwT : List String)
    (c : LexCtx) (hst : c.state = SCE_ZIG_DEFAULT) :
    zigCaseArm doc endPos kwK kwT c = .next c := by
  simp +decide only [zigCaseArm, hst, SCE_ZIG_CHARACTER, SCE_ZIG_STRING, SCE_ZIG_MULTISTRING,
    SCE_ZIG_DEFAULT, SCE_ZIG_OPERATOR, SCE_ZIG_NUMBER, SCE_ZIG_IDENTIFIER,
    SCE_ZIG_BUILTIN_FUNCTION, SCE_ZIG_ESCAPECHAR, SCE_ZIG_PLACEHOLDER, SCE_ZIG_COMMENTLINE,
    SCE_ZIG_COMMENTLINEDOC, SCE_ZIG_COMMENTLINETOP, reduceIte]

theorem zigStep_lineStart_reset (doc : List Char) (endPos : Nat) (kwK kwT : List String)
    (c : LexCtx) (hst : c.state ∈ zigStringArmStates)
    (hls : atLineStartB doc c.pos = true) :
    zigStep doc endPos kwK kwT c = zigStep doc endPos kwK kwT (setState c SCE_ZIG_DEFAULT) := by
  unfold zigStep
  rw [zigCaseArm_reset doc endPos kwK kwT c hst hls,
    zigCaseArm_default doc endPos kwK kwT (setState c SCE_ZIG_DEFAULT) (by simp)]

/-- C10: every single-line literal state is reset to the default state at
the start of the next line.  At a line-start position, stepping the Scala
loop from any single-line string-family state (backticks, character, XML
attribute strings, plain and interpolated strings) behaves exactly as if
the literal had been closed there (the pending run is flushed and the
automaton restarts in the default state); likewise stepping the Zig loop
from its character, string or line-oriented multiline-string state; only
the triple-quoted Scala string states persist across the boundary (on an
ordinary character they stay in the same state). -/
theorem single_line_literal_reset (doc : List Char) (endPos : Nat)
    (kwK kwC kwT kwZK kwZT : List String) (c : LexCtx) :
    (c.state ∈ scalaStringArmStates → IsSingleLineString c.state = true →
      atLineStartB doc c.pos = true →
      scalaStep doc endPos kwK kwC kwT c
        = scalaStep doc endPos kwK kwC kwT (setState c SCE_SCALA_DEFAULT))
    ∧ (c.state ∈ zigStringArmStates → atLineStartB doc c.pos = true →
      zigStep doc endPos kwZK kwZT c = zigStep doc endPos kwZK kwZT (setState c SCE_ZIG_DEFAULT))
    ∧ ((c.state = SCE_SCALA_TRIPLE_STRING ∨ c.state = SCE_SCALA_TRIPLE_INTERPOLATED_STRING) →
      chAt doc c.pos ≠ '\\' → chAt doc c.pos ≠ '$' → chAt doc c.pos ≠ '"' →
      (scalaStep doc endPos kwK kwC kwT c).state = c.state) :=
  ⟨fun hst hsl hls => scalaStep_lineStart_reset doc endPos kwK kwC kwT c hst hsl hls,
    fun hst hls => zigStep_lineStart_reset doc endPos kwZK kwZT c hst hls,
    fun hst h1 h2 h3 => scalaStep_triple_persists doc endPos kwK kwC kwT c hst h1 h2 h3⟩

theorem single_line_literal_reset_witness :
    scalaStep ['"', 'a', '\n', 'b'] 4 [] [] []
        (scalaRunN ['"', 'a', '\n', 'b'] 4 [] [] [] 3 (initCtx 0 SCE_SCALA_DEFAULT))
      = scalaStep ['"', 'a', '\n', 'b'] 4 [] [] []
        (setState (scalaRunN ['"', 'a', '\n', 'b'] 4 [] [] [] 3 (initCtx 0 SCE_SCALA_DEFAULT))
          SCE_SCALA_DEFAULT)
    ∧ zigStep ['"', 'a', '\n', 'b'] 4 [] []
        (zigRunN ['"', 'a', '\n', 'b'] 4 [] [] 3 (initCtx 0 SCE_ZIG_DEFAULT))
      = zigStep ['"', 'a', '\n', 'b'] 4 [] []
        (setState (zigRunN ['"', 'a', '\n', 'b'] 4 [] [] 3 (initCtx 0 SCE_ZIG_DEFAULT))
          SCE_ZIG_DEFAULT)
    ∧ (scalaStep ['"', '"', '"', '\n', 'b'] 5 [] [] []
        (scalaRunN ['"', '"', '"', '\n', 'b'] 5 [] [] [] 2 (initCtx 0 SCE_SCALA_DEFAULT))).state
      = SCE_SCALA_TRIPLE_STRING := by
  refine ⟨(single_line_literal_reset ['"', 'a', '\n', 'b'] 4 [] [] [] [] []
      (scalaRunN ['"', 'a', '\n', 'b'] 4 [] [] [] 3 (initCtx 0 SCE_SCALA_DEFAULT))).1
      (by decide) (by decide) (by decide),
    (single_line_literal_reset ['"', 'a', '\n', 'b'] 4 [] [] [] [] []
      (zigRunN ['"', 'a', '\n', 'b'] 4 [] [] 3 (initCtx 0 SCE_ZIG_DEFAULT))).2.1
      (by decide) (by decide),
    ((single_line_literal_reset ['"', '"', '"', '\n', 'b'] 5 [] [] [] [] []
      (scalaRunN ['"', '"', '"', '\n', 'b'] 5 [] [] [] 2 (initCtx 0 SCE_SCALA_DEFAULT))).2.2
      (by decide) (by decide) (by decide) (by decide)).trans (by decide)⟩
theorem zigFoldLineInner_level (line : List (Char × Nat)) (lev : Int) (v : Bool) :
    (zigFoldLineInner line (lev, v)).1
      = lev + ((zigFoldOpenCount line : Int) - (zigFoldCloseCount line : Int)) := by
  induction line generalizing lev v with
  | nil => simp [zigFoldLineInner, zigFoldOpenCount, zigFoldCloseCount]
  | cons p rest ih =>
    obtain ⟨ch, style⟩ := p
    have hx : (ch = '{' ∨ ch = '[' ∨ ch = '(') → ¬ (ch = '}' ∨ ch = ']' ∨ ch = ')') := by
      rintro (h | h | h) <;> subst h <;> decide
    have e1 : zigFoldOpenCount ((ch, style) :: rest)
        = (if style = SCE_ZIG_OPERATOR ∧ (ch = '{' ∨ ch = '[' ∨ ch = '(') then 1 else 0)
          + zigFoldOpenCount rest := by
      simp only [zigFoldOpenCount, List.filter_cons]
      split
      · rename_i h
        simp only [List.length_cons]
        rw [if_pos]
        · omega
        · simpa using h
      · rename_i h
        rw [if_neg]
        · omega
        · simpa using h
    have e2 : zigFoldCloseCount ((ch, style) :: rest)
        = (if style = SCE_ZIG_OPERATOR ∧ (ch = '}' ∨ ch = ']' ∨ ch = ')') then 1 else 0)
          + zigFoldCloseCount rest := by
      simp only [zigFoldCloseCount, List.filter_cons]
      split
      · rename_i h
        simp only [List.length_cons]
        rw [if_pos]
        · omega
        · simpa using h
      · rename_i h
        rw [if_neg]
        · omega
        · simpa using h
    simp only [zigFoldLineInner, ih, e1, e2]
    split_ifs
    all_goals first
      | (push_cast; omega)
      | tauto

/-- At the base fold level, a line consisting of one operator-styled
closing brace keeps the level at the base: LexZig.cxx line 378 clamps the
walked level with the maximum against the base before storing it, so the
next level is 1024, not the 1023 that an unclamped net-closer decrease
would give. -/
theorem zig_fold_clamp_counterexample :
    (zigFoldProcessLine 0 0 0 1024 [('}', SCE_ZIG_OPERATOR)]).1 = 1024
    ∧ 1024 + ((zigFoldOpenCount [('}', SCE_ZIG_OPERATOR)] : Int)
        - (zigFoldCloseCount [('}', SCE_ZIG_OPERATOR)] : Int)) = 1023 := by
  decide

/-- C8 (amended): per-line fold level computation of FoldZigDoc, for every
line, incoming level and flag triple.  The level carried to the next line
is the incoming level plus the count of operator-styled opening braces,
brackets and parentheses minus the count of operator-styled closers,
clamped below at the fold-level base before the continuation adjustment
(so a net-closer line at the base keeps the base level, see the
counterexample); line-comment and multiline-string continuation lines then
add the delta of their inside-flag transition on top of the clamped level.
The stored fold word carries the header-flag bit exactly when the line's
end level exceeds its start level, or when the start level itself already
contains that bit (which cannot happen below 8192). -/
theorem zig_fold_line_characterization (line : List (Char × Nat)) (fp fc fn : Nat)
    (lev : Int) :
    (zigFoldProcessLine fp fc fn lev line).1
      = max (lev + ((zigFoldOpenCount line : Int) - (zigFoldCloseCount line : Int)))
          SC_FOLDLEVELBASE
        + (if zigFoldLineComment fc = 1 then
            (zigFoldLineComment fn : Int) - (zigFoldLineComment fp : Int)
          else if zigFoldMultilineString fc = 1 then
            (zigFoldMultilineString fn : Int) - (zigFoldMultilineString fp : Int)
          else 0)
    ∧ ((zigFoldProcessLine fp fc fn lev line).2.testBit 13 = true
        ↔ (lev < (zigFoldProcessLine fp fc fn lev line).1
            ∨ lev.toNat.testBit 13 = true)) := by
  have hinner := zigFoldLineInner_level line lev false
  have hmax : max (zigFoldLineInner line (lev, false)).1 SC_FOLDLEVELBASE
      = max (lev + ((zigFoldOpenCount line : Int) - (zigFoldCloseCount line : Int)))
          SC_FOLDLEVELBASE := by
    rw [hinner]
  have hfirst : (zigFoldProcessLine fp fc fn lev line).1
      = max (lev + ((zigFoldOpenCount line : Int) - (zigFoldCloseCount line : Int)))
          SC_FOLDLEVELBASE
        + (if zigFoldLineComment fc = 1 then
            (zigFoldLineComment fn : Int) - (zigFoldLineComment fp : Int)
          else if zigFoldMultilineString fc = 1 then
            (zigFoldMultilineString fn : Int) - (zigFoldMultilineString fp : Int)
          else 0) := by
    simp only [zigFoldProcessLine, hmax]
    split_ifs <;> simp
  refine ⟨hfirst, ?_⟩
  have hsnd : (zigFoldProcessLine fp fc fn lev line).2
      = lev.toNat ||| ((zigFoldProcessLine fp fc fn lev line).1.toNat <<< 16)
        ||| (if lev < (zigFoldProcessLine fp fc fn lev line).1 then SC_FOLDLEVELHEADERFLAG
            else 0) := by
    simp only [zigFoldProcessLine, hmax]
    split_ifs <;> simp [Nat.lor_assoc]
  rw [hsnd]
  simp only [Nat.testBit_lor, Nat.testBit_shiftLeft]
  by_cases hflag : lev < (zigFoldProcessLine fp fc fn lev line).1
  · simp +decide [hflag, SC_FOLDLEVELHEADERFLAG]
  · simp +decide [hflag, SC_FOLDLEVELHEADERFLAG]

/-! ### C9: cursor monotonicity, bounded stalls, and exact consumption -/

@[simp] theorem isCont_ite (P : Prop) [Decidable P] (a b : LexFlow) :
    isCont (if P then a else b) = if P then isCont a else isCont b :=
  apply_ite isCont P a b

@[simp] theorem isCont_cont (c : LexCtx) : isCont (.cont c) = true := rfl

@[simp] theorem isCont_next (c : LexCtx) : isCont (.next c) = false := rfl

theorem skipQuotesAux_ge (doc : List Char) (f p : Nat) : p ≤ skipQuotesAux doc f p := by
  induction f generalizing p with
  | zero => simp [skipQuotesAux]
  | succ f ih =>
    unfold skipQuotesAux
    split
    · exact le_trans (by omega) (ih (p + 1))
    · exact le_refl p

theorem skipQuotesAux_le (doc : List Char) (f p : Nat) : skipQuotesAux doc f p ≤ p + f := by
  induction f generalizing p with
  | zero => simp [skipQuotesAux]
  | succ f ih =>
    unfold skipQuotesAux
    split
    · exact le_trans (ih (p + 1)) (by omega)
    · omega

theorem advanceN_pos_le (e : Nat) (n : Nat) (c : LexCtx) : c.pos ≤ (advanceN e n c).pos := by
  induction n generalizing c with
  | zero => exact le_refl _
  | succ n ih =>
    refine le_trans ?_ (ih (forward e c))
    simp only [forward_pos]
    split <;> omega

theorem advanceN_pos_bound (e : Nat) (n : Nat) (c : LexCtx) (h : c.pos ≤ e) :
    (advanceN e n c).pos ≤ e := by
  induction n generalizing c with
  | zero => exact h
  | succ n ih =>
    refine ih (forward e c) ?_
    simp only [forward_pos]
    split <;> omega

theorem scalaOuterOk_notStall (c : LexCtx) (h : scalaOuterOk c = true) :
    scalaStallCapable c.escOuter = false := by
  simp only [scalaOuterOk, scalaStringArmStates, List.contains, Bool.or_eq_true, beq_iff_eq,
    List.elem_eq_mem, List.mem_cons, List.not_mem_nil, or_false, decide_eq_true_eq] at h
  rcases h with h | h | h | h | h | h | h | h | h <;> rw [h] <;> decide

theorem zigOuterOk_notStall (c : LexCtx) (h : zigOuterOk c = true) :
    zigStallCapable c.escOuter = false := by
  simp only [zigOuterOk, zigStringArmStates, List.contains, Bool.or_eq_true, beq_iff_eq,
    List.elem_eq_mem, List.mem_cons, List.not_mem_nil, or_false, decide_eq_true_eq] at h
  rcases h with h | h | h | h <;> rw [h] <;> decide

theorem scalaCaseCommentBlock_main (doc : List Char) (endPos : Nat) (c : LexCtx)
    (hInv : scalaOuterOk c = true) (hpos : c.pos < endPos) :
    c.pos ≤ (flowCtx (scalaCaseCommentBlock doc endPos c)).pos
    ∧ (flowCtx (scalaCaseCommentBlock doc endPos c)).pos ≤ endPos
    ∧ scalaOuterOk (flowCtx (scalaCaseCommentBlock doc endPos c)) = true
    ∧ (isCont (scalaCaseCommentBlock doc endPos c) = true →
        (flowCtx (scalaCaseCommentBlock doc endPos c)).pos = c.pos →
        scalaStallCapable c.state = true
        ∧ scalaStallCapable (flowCtx (scalaCaseCommentBlock doc endPos c)).state = false) := by
  unfold scalaCaseCommentBlock
  dsimp only
  repeat' split
  all_goals refine ⟨?_, ?_, ?_, ?_⟩
  all_goals simp_all [scalaOuterOk]
  all_goals (try split_ifs) <;> omega

theorem scalaCaseIdent_main (doc : List Char) (endPos : Nat) (kwK kwC kwT : List String)
    (c : LexCtx) (hInv : scalaOuterOk c = true) (hpos : c.pos < endPos)
    (hst : c.state = SCE_SCALA_IDENTIFIER ∨ c.state = SCE_SCALA_ANNOTATION
      ∨ c.state = SCE_SCALA_SYMBOL ∨ c.state = SCE_SCALA_XML_TAG
      ∨ c.state = SCE_SCALA_XML_ATTRIBUTE) :
    c.pos ≤ (flowCtx (scalaCaseIdent doc endPos kwK kwC kwT c)).pos
    ∧ (flowCtx (scalaCaseIdent doc endPos kwK kwC kwT c)).pos ≤ endPos
    ∧ scalaOuterOk (flowCtx (scalaCaseIdent doc endPos kwK kwC kwT c)) = true
    ∧ (isCont (scalaCaseIdent doc endPos kwK kwC kwT c) = true →
        (flowCtx (scalaCaseIdent doc endPos kwK kwC kwT c)).pos = c.pos →
        scalaStallCapable c.state = true
        ∧ scalaStallCapable (flowCtx (scalaCaseIdent doc endPos kwK kwC kwT c)).state = false) := by
  have hns := scalaOuterOk_notStall c hInv
  unfold scalaCaseIdent
  dsimp only
  repeat' split
  all_goals refine ⟨?_, ?_, ?_, ?_⟩
  all_goals simp_all +decide [scalaOuterOk, scalaStallCapable]
  all_goals (try split_ifs) <;> try omega

theorem scalaCaseString_main (doc : List Char) (endPos : Nat) (c : LexCtx)
    (hInv : scalaOuterOk c = true) (hpos : c.pos < endPos)
    (hst : c.state ∈ scalaStringArmStates) :
    c.pos ≤ (flowCtx (scalaCaseString doc endPos c)).pos
    ∧ (flowCtx (scalaCaseString doc endPos c)).pos ≤ endPos
    ∧ scalaOuterOk (flowCtx (scalaCaseString doc endPos c)) = true
    ∧ (isCont (scalaCaseString doc endPos c) = true →
        (flowCtx (scalaCaseString doc endPos c)).pos = c.pos →
        scalaStallCapable c.state = true
        ∧ scalaStallCapable (flowCtx (scalaCaseString doc endPos c)).state = false) := by
  have hq1 := skipQuotesAux_ge doc (endPos - c.pos) c.pos
  have hq2 := skipQuotesAux_le doc (endPos - c.pos) c.pos
  simp only [scalaStringArmStates, List.mem_cons, List.not_mem_nil, or_false] at hst
  rcases hst with hst | hst | hst | hst | hst | hst | hst | hst
  all_goals
    unfold scalaCaseString
  all_goals
    dsimp only
  all_goals
    repeat' split
  all_goals refine ⟨?_, ?_, ?_, ?_⟩
  all_goals simp_all +decide [scalaOuterOk, scalaStallCapable, scalaStringArmStates]
  all_goals (try split_ifs) <;> omega

theorem scalaCaseXml_main (doc : List Char) (endPos : Nat) (c : LexCtx)
    (hInv : scalaOuterOk c = true) (hpos : c.pos < endPos) :
    c.pos ≤ (flowCtx (scalaCaseXml doc endPos c)).pos
    ∧ (flowCtx (scalaCaseXml doc endPos c)).pos ≤ endPos
    ∧ scalaOuterOk (flowCtx (scalaCaseXml doc endPos c)) = true
    ∧ (isCont (scalaCaseXml doc endPos c) = true →
        (flowCtx (scalaCaseXml doc endPos c)).pos = c.pos →
        scalaStallCapable c.state = true
        ∧ scalaStallCapable (flowCtx (scalaCaseXml doc endPos c)).state = false) := by
  unfold scalaCaseXml
  dsimp only
  repeat' split
  all_goals refine ⟨?_, ?_, ?_, ?_⟩
  all_goals simp_all [scalaOuterOk]
  all_goals (try split_ifs) <;> omega

theorem scalaCaseArm_main (doc : List Char) (endPos : Nat) (kwK kwC kwT : List String)
    (c : LexCtx) (hInv : scalaOuterOk c = true) (hpos : c.pos < endPos) :
    c.pos ≤ (flowCtx (scalaCaseArm doc endPos kwK kwC kwT c)).pos
    ∧ (flowCtx (scalaCaseArm doc endPos kwK kwC kwT c)).pos ≤ endPos
    ∧ scalaOuterOk (flowCtx (scalaCaseArm doc endPos kwK kwC kwT c)) = true
    ∧ (isCont (scalaCaseArm doc endPos kwK kwC kwT c) = true →
        (flowCtx (scalaCaseArm doc endPos kwK kwC kwT c)).pos = c.pos →
        scalaStallCapable c.state = true
        ∧ scalaStallCapable (flowCtx (scalaCaseArm doc endPos kwK kwC kwT c)).state = false) := by
  have hns := scalaOuterOk_notStall c hInv
  unfold scalaCaseArm
  dsimp only
  repeat' split
  all_goals first
    | exact scalaCaseIdent_main doc endPos kwK kwC kwT c hInv hpos (by tauto)
    | exact scalaCaseCommentBlock_main doc endPos c hInv hpos
    | exact scalaCaseString_main doc endPos c hInv hpos
        (by simp only [scalaStringArmStates, List.mem_cons, List.not_mem_nil, or_false]; tauto)
    | exact scalaCaseXml_main doc endPos c hInv hpos
    | (refine ⟨?_, ?_, ?_, ?_⟩ <;>
        simp_all +decide [scalaOuterOk, scalaStallCapable, scalaStringArmStates] <;>
        try omega)

@[simp] theorem advanceN_two (e : Nat) (c : LexCtx) :
    advanceN e 2 c = forward e (forward e c) := rfl

theorem scalaEntryGraphic_main (doc : List Char) (endPos : Nat) (c : LexCtx)
    (hInv : scalaOuterOk c = true) (hpos : c.pos ≤ endPos) :
    c.pos ≤ (flowCtx (scalaEntryGraphic doc endPos c)).pos
    ∧ (flowCtx (scalaEntryGraphic doc endPos c)).pos ≤ endPos
    ∧ scalaOuterOk (flowCtx (scalaEntryGraphic doc endPos c)) = true
    ∧ (isCont (scalaEntryGraphic doc endPos c) = true → c.pos < endPos →
        c.pos < (flowCtx (scalaEntryGraphic doc endPos c)).pos) := by
  unfold scalaEntryGraphic
  dsimp only
  repeat' split
  all_goals refine ⟨?_, ?_, ?_, ?_⟩
  all_goals simp_all [scalaOuterOk]
  all_goals (try split_ifs) <;> omega

theorem scalaEntry_main (doc : List Char) (endPos : Nat) (c : LexCtx)
    (hInv : scalaOuterOk c = true) (hpos : c.pos ≤ endPos) :
    c.pos ≤ (flowCtx (scalaEntry doc endPos c)).pos
    ∧ (flowCtx (scalaEntry doc endPos c)).pos ≤ endPos
    ∧ scalaOuterOk (flowCtx (scalaEntry doc endPos c)) = true
    ∧ (isCont (scalaEntry doc endPos c) = true → c.pos < endPos →
        c.pos < (flowCtx (scalaEntry doc endPos c)).pos) := by
  unfold scalaEntry
  dsimp only
  repeat' split
  all_goals first
    | exact scalaEntryGraphic_main doc endPos c hInv hpos
    | (refine ⟨?_, ?_, ?_, ?_⟩ <;> simp_all [scalaOuterOk] <;> (try split_ifs) <;> omega)

theorem scalaFinish_main (doc : List Char) (endPos : Nat) (c : LexCtx)
    (hInv : scalaOuterOk c = true) (hpos : c.pos ≤ endPos) :
    c.pos ≤ (scalaFinish doc endPos c).pos
    ∧ (scalaFinish doc endPos c).pos ≤ endPos
    ∧ scalaOuterOk (scalaFinish doc endPos c) = true
    ∧ (c.pos < endPos → c.pos < (scalaFinish doc endPos c).pos) := by
  unfold scalaFinish
  dsimp only
  repeat' split
  all_goals refine ⟨?_, ?_, ?_, ?_⟩
  all_goals simp_all [scalaOuterOk]
  all_goals (try split_ifs) <;> omega

theorem zigFinish_main (doc : List Char) (endPos : Nat) (c : LexCtx)
    (hInv : zigOuterOk c = true) (hpos : c.pos ≤ endPos) :
    c.pos ≤ (zigFinish doc endPos c).pos
    ∧ (zigFinish doc endPos c).pos ≤ endPos
    ∧ zigOuterOk (zigFinish doc endPos c) = true
    ∧ (c.pos < endPos → c.pos < (zigFinish doc endPos c).pos) := by
  unfold zigFinish
  dsimp only
  repeat' split
  all_goals refine ⟨?_, ?_, ?_, ?_⟩
  all_goals simp_all [zigOuterOk]
  all_goals (try split_ifs) <;> omega

theorem zigEntry_main (doc : List Char) (endPos : Nat) (c : LexCtx)
    (hInv : zigOuterOk c = true) (hpos : c.pos ≤ endPos) :
    c.pos ≤ (zigEntry doc endPos c).pos
    ∧ (zigEntry doc endPos c).pos ≤ endPos
    ∧ zigOuterOk (zigEntry doc endPos c) = true := by
  unfold zigEntry
  dsimp only
  repeat' split
  all_goals refine ⟨?_, ?_, ?_⟩
  all_goals simp_all [zigOuterOk]
  all_goals (try split_ifs) <;> omega

theorem zigCaseIdent_main (doc : List Char) (endPos : Nat) (kwK kwT : List String)
    (c : LexCtx) (hInv : zigOuterOk c = true) (hpos : c.pos < endPos)
    (hst : c.state = SCE_ZIG_IDENTIFIER ∨ c.state = SCE_ZIG_BUILTIN_FUNCTION) :
    c.pos ≤ (flowCtx (zigCaseIdent doc endPos kwK kwT c)).pos
    ∧ (flowCtx (zigCaseIdent doc endPos kwK kwT c)).pos ≤ endPos
    ∧ zigOuterOk (flowCtx (zigCaseIdent doc endPos kwK kwT c)) = true
    ∧ (isCont (zigCaseIdent doc endPos kwK kwT c) = true →
        (flowCtx (zigCaseIdent doc endPos kwK kwT c)).pos = c.pos →
        zigStallCapable c.state = true
        ∧ zigStallCapable (flowCtx (zigCaseIdent doc endPos kwK kwT c)).state = false) := by
  unfold zigCaseIdent
  dsimp only
  repeat' split
  all_goals refine ⟨?_, ?_, ?_, ?_⟩
  all_goals simp_all +decide [zigOuterOk, zigStallCapable]
  all_goals (try split_ifs) <;> omega

theorem zigCaseString_main (doc : List Char) (endPos : Nat) (c : LexCtx)
    (hInv : zigOuterOk c = true) (hpos : c.pos < endPos)
    (hst : c.state ∈ zigStringArmStates) :
    c.pos ≤ (flowCtx (zigCaseString doc endPos c)).pos
    ∧ (flowCtx (zigCaseString doc endPos c)).pos ≤ endPos
    ∧ zigOuterOk (flowCtx (zigCaseString doc endPos c)) = true
    ∧ (isCont (zigCaseString doc endPos c) = true →
        (flowCtx (zigCaseString doc endPos c)).pos = c.pos →
        zigStallCapable c.state = true
        ∧ zigStallCapable (flowCtx (zigCaseString doc endPos c)).state = false) := by
  simp only [zigStringArmStates, List.mem_cons, List.not_mem_nil, or_false] at hst
  by_cases hA : atLineStartB doc c.pos = true
  · unfold zigCaseString
    dsimp only
    rw [if_pos hA]
    refine ⟨?_, ?_, ?_, ?_⟩ <;> simp_all +decide [zigOuterOk, zigStallCapable, zigStringArmStates]
    omega
  · by_cases hB : chAt doc c.pos = '\\' ∧ c.state ≠ SCE_ZIG_MULTISTRING
    · unfold zigCaseString
      dsimp only
      rw [if_neg hA, if_pos hB]
      rcases hst with hst | hst | hst
      all_goals refine ⟨?_, ?_, ?_, ?_⟩
      all_goals simp +decide [zigOuterOk, zigStallCapable, zigStringArmStates, hst]
      all_goals (try split_ifs) <;> omega
    · unfold zigCaseString
      dsimp only
      rw [if_neg hA, if_neg hB]
      rcases hst with hst | hst | hst
      all_goals repeat' split
      all_goals refine ⟨?_, ?_, ?_, ?_⟩
      all_goals simp_all +decide [zigOuterOk, zigStallCapable, zigStringArmStates]
      all_goals (try split_ifs) <;> omega

theorem zigCasePlaceholder_main (doc : List Char) (endPos : Nat) (c : LexCtx)
    (hInv : zigOuterOk c = true) (hpos : c.pos < endPos)
    (hst : c.state = SCE_ZIG_PLACEHOLDER) :
    c.pos ≤ (flowCtx (zigCasePlaceholder doc endPos c)).pos
    ∧ (flowCtx (zigCasePlaceholder doc endPos c)).pos ≤ endPos
    ∧ zigOuterOk (flowCtx (zigCasePlaceholder doc endPos c)) = true
    ∧ (isCont (zigCasePlaceholder doc endPos c) = true →
        (flowCtx (zigCasePlaceholder doc endPos c)).pos = c.pos →
        zigStallCapable c.state = true
        ∧ zigStallCapable (flowCtx (zigCasePlaceholder doc endPos c)).state = false) := by
  have hns := zigOuterOk_notStall c hInv
  unfold zigCasePlaceholder
  dsimp only
  repeat' split
  all_goals refine ⟨?_, ?_, ?_, ?_⟩
  all_goals simp_all +decide [zigOuterOk, zigStallCapable, zigStringArmStates]
  all_goals (try split_ifs)
  all_goals try omega
  all_goals
    first
      | (exact advanceN_pos_bound _ _ _ (by simp_all <;> (try split_ifs) <;> omega))
      | (refine le_trans ?_ (advanceN_pos_le _ _ _) <;> simp_all <;> (try split_ifs) <;> omega)
      | (refine le_trans ?_ (Nat.le_succ _) <;>
          refine le_trans ?_ (advanceN_pos_le _ _ _) <;> simp_all <;> (try split_ifs) <;> omega)

theorem zigCaseArm_main (doc : List Char) (endPos : Nat) (kwK kwT : List String)
    (c : LexCtx) (hInv : zigOuterOk c = true) (hpos : c.pos < endPos) :
    c.pos ≤ (flowCtx (zigCaseArm doc endPos kwK kwT c)).pos
    ∧ (flowCtx (zigCaseArm doc endPos kwK kwT c)).pos ≤ endPos
    ∧ zigOuterOk (flowCtx (zigCaseArm doc endPos kwK kwT c)) = true
    ∧ (isCont (zigCaseArm doc endPos kwK kwT c) = true →
        (flowCtx (zigCaseArm doc endPos kwK kwT c)).pos = c.pos →
        zigStallCapable c.state = true
        ∧ zigStallCapable (flowCtx (zigCaseArm doc endPos kwK kwT c)).state = false) := by
  have hns := zigOuterOk_notStall c hInv
  unfold zigCaseArm
  dsimp only
  repeat' split
  all_goals first
    | exact zigCaseIdent_main doc endPos kwK kwT c hInv hpos (by tauto)
    | exact zigCaseString_main doc endPos c hInv hpos
        (by simp only [zigStringArmStates, List.mem_cons, List.not_mem_nil, or_false]; tauto)
    | exact zigCasePlaceholder_main doc endPos c hInv hpos (by assumption)
    | (refine ⟨?_, ?_, ?_, ?_⟩ <;>
        simp_all +decide [zigOuterOk, zigStallCapable, zigStringArmStates] <;>
        (try split_ifs) <;> omega)

theorem scalaStep_main (doc : List Char) (endPos : Nat) (kwK kwC kwT : List String)
    (c : LexCtx) (hInv : scalaOuterOk c = true) (hpos : c.pos < endPos) :
    c.pos ≤ (scalaStep doc endPos kwK kwC kwT c).pos
    ∧ (scalaStep doc endPos kwK kwC kwT c).pos ≤ endPos
    ∧ scalaOuterOk (scalaStep doc endPos kwK kwC kwT c) = true
    ∧ ((scalaStep doc endPos kwK kwC kwT c).pos = c.pos →
        scalaStallCapable c.state = true
        ∧ scalaStallCapable (scalaStep doc endPos kwK kwC kwT c).state = false) := by
  obtain ⟨a1, a2, a3, a4⟩ := scalaCaseArm_main doc endPos kwK kwC kwT c hInv hpos
  unfold scalaStep
  rcases h1 : scalaCaseArm doc endPos kwK kwC kwT c with c1 | c1
  · rw [h1] at a1 a2 a3 a4
    simp only [flowCtx_cont, isCont_cont] at a1 a2 a3 a4
    exact ⟨a1, a2, a3, fun h => by first | exact a4 rfl h | exact a4 trivial h | exact a4 h⟩
  · rw [h1] at a1 a2 a3 a4
    simp only [flowCtx_next, isCont_next] at a1 a2 a3
    dsimp only
    by_cases hd : c1.state = SCE_SCALA_DEFAULT
    · rw [if_pos hd]
      obtain ⟨e1, e2, e3, e4⟩ := scalaEntry_main doc endPos c1 a3 a2
      rcases h2 : scalaEntry doc endPos c1 with c2 | c2
      · rw [h2] at e1 e2 e3 e4
        simp only [flowCtx_cont, isCont_cont] at e1 e2 e3 e4
        dsimp only
        refine ⟨le_trans a1 e1, e2, e3, fun hp => ?_⟩
        exfalso
        by_cases hlt : c1.pos < endPos
        · have h5 : c1.pos < c2.pos := by first | exact e4 rfl hlt | exact e4 trivial hlt | exact e4 hlt
          omega
        · omega
      · rw [h2] at e1 e2 e3 e4
        simp only [flowCtx_next, isCont_next] at e1 e2 e3
        dsimp only
        obtain ⟨f1, f2, f3, f4⟩ := scalaFinish_main doc endPos c2 e3 e2
        refine ⟨le_trans a1 (le_trans e1 f1), f2, f3, fun hp => ?_⟩
        exfalso
        by_cases hlt : c2.pos < endPos
        · have h5 := f4 hlt
          omega
        · omega
    · rw [if_neg hd]
      dsimp only
      obtain ⟨f1, f2, f3, f4⟩ := scalaFinish_main doc endPos c1 a3 a2
      refine ⟨le_trans a1 f1, f2, f3, fun hp => ?_⟩
      exfalso
      by_cases hlt : c1.pos < endPos
      · have h5 := f4 hlt
        omega
      · omega

theorem zigStep_main (doc : List Char) (endPos : Nat) (kwK kwT : List String)
    (c : LexCtx) (hInv : zigOuterOk c = true) (hpos : c.pos < endPos) :
    c.pos ≤ (zigStep doc endPos kwK kwT c).pos
    ∧ (zigStep doc endPos kwK kwT c).pos ≤ endPos
    ∧ zigOuterOk (zigStep doc endPos kwK kwT c) = true
    ∧ ((zigStep doc endPos kwK kwT c).pos = c.pos →
        zigStallCapable c.state = true
        ∧ zigStallCapable (zigStep doc endPos kwK kwT c).state = false) := by
  obtain ⟨a1, a2, a3, a4⟩ := zigCaseArm_main doc endPos kwK kwT c hInv hpos
  unfold zigStep
  rcases h1 : zigCaseArm doc endPos kwK kwT c with c1 | c1
  · rw [h1] at a1 a2 a3 a4
    simp only [flowCtx_cont, isCont_cont] at a1 a2 a3 a4
    exact ⟨a1, a2, a3, fun h => by first | exact a4 rfl h | exact a4 trivial h | exact a4 h⟩
  · rw [h1] at a1 a2 a3 a4
    simp only [flowCtx_next, isCont_next] at a1 a2 a3
    dsimp only
    by_cases hd : c1.state = SCE_ZIG_DEFAULT
    · rw [if_pos hd]
      obtain ⟨n1, n2, n3⟩ := zigEntry_main doc endPos c1 a3 a2
      obtain ⟨f1, f2, f3, f4⟩ := zigFinish_main doc endPos (zigEntry doc endPos c1) n3 n2
      refine ⟨le_trans a1 (le_trans n1 f1), f2, f3, fun hp => ?_⟩
      exfalso
      by_cases hlt : (zigEntry doc endPos c1).pos < endPos
      · have h5 := f4 hlt
        omega
      · omega
    · rw [if_neg hd]
      obtain ⟨f1, f2, f3, f4⟩ := zigFinish_main doc endPos c1 a3 a2
      refine ⟨le_trans a1 f1, f2, f3, fun hp => ?_⟩
      exfalso
      by_cases hlt : c1.pos < endPos
      · have h5 := f4 hlt
        omega
      · omega

theorem scalaRunN_pos_eq (doc : List Char) (endPos : Nat) (kwK kwC kwT : List String) :
    ∀ fuel c, scalaOuterOk c = true → c.pos ≤ endPos →
      2 * (endPos - c.pos) + (scalaStallCapable c.state).toNat ≤ fuel →
      (scalaRunN doc endPos kwK kwC kwT fuel c).pos = endPos := by
  intro fuel
  induction fuel with
  | zero =>
    intro c _ h2 h3
    have h4 : 2 * (endPos - c.pos) ≤ 0 := le_trans (Nat.le_add_right _ _) h3
    simp only [scalaRunN]
    omega
  | succ fuel ih =>
    intro c h1 h2 h3
    simp only [scalaRunN]
    split
    · rename_i hlt
      obtain ⟨s1, s2, s3, s4⟩ := scalaStep_main doc endPos kwK kwC kwT c h1 hlt
      apply ih _ s3 s2
      by_cases heq : (scalaStep doc endPos kwK kwC kwT c).pos = c.pos
      · obtain ⟨t1, t2⟩ := s4 heq
        have hg : 2 * (endPos - (scalaStep doc endPos kwK kwC kwT c).pos)
            + (scalaStallCapable (scalaStep doc endPos kwK kwC kwT c).state).toNat
            = 2 * (endPos - c.pos) := by
          rw [heq, t2]
          simp
        have h3a : 2 * (endPos - c.pos) + 1 ≤ fuel + 1 := by
          rw [t1] at h3
          exact h3
        rw [hg]
        omega
      · have hlt2 : c.pos < (scalaStep doc endPos kwK kwC kwT c).pos :=
          lt_of_le_of_ne s1 (fun h => heq h.symm)
        have hb1 : (scalaStallCapable (scalaStep doc endPos kwK kwC kwT c).state).toNat ≤ 1 := by
          cases h : scalaStallCapable (scalaStep doc endPos kwK kwC kwT c).state <;> simp [h]
        omega
    · rename_i hge
      omega

theorem zigRunN_pos_eq (doc : List Char) (endPos : Nat) (kwK kwT : List String) :
    ∀ fuel c, zigOuterOk c = true → c.pos ≤ endPos →
      2 * (endPos - c.pos) + (zigStallCapable c.state).toNat ≤ fuel →
      (zigRunN doc endPos kwK kwT fuel c).pos = endPos := by
  intro fuel
  induction fuel with
  | zero =>
    intro c _ h2 h3
    have h4 : 2 * (endPos - c.pos) ≤ 0 := le_trans (Nat.le_add_right _ _) h3
    simp only [zigRunN]
    omega
  | succ fuel ih =>
    intro c h1 h2 h3
    simp only [zigRunN]
    split
    · rename_i hlt
      obtain ⟨s1, s2, s3, s4⟩ := zigStep_main doc endPos kwK kwT c h1 hlt
      apply ih _ s3 s2
      by_cases heq : (zigStep doc endPos kwK kwT c).pos = c.pos
      · obtain ⟨t1, t2⟩ := s4 heq
        have hg : 2 * (endPos - (zigStep doc endPos kwK kwT c).pos)
            + (zigStallCapable (zigStep doc endPos kwK kwT c).state).toNat
            = 2 * (endPos - c.pos) := by
          rw [heq, t2]
          simp
        have h3a : 2 * (endPos - c.pos) + 1 ≤ fuel + 1 := by
          rw [t1] at h3
          exact h3
        rw [hg]
        omega
      · have hlt2 : c.pos < (zigStep doc endPos kwK kwT c).pos :=
          lt_of_le_of_ne s1 (fun h => heq h.symm)
        have hb1 : (zigStallCapable (zigStep doc endPos kwK kwT c).state).toNat ≤ 1 := by
          cases h : zigStallCapable (zigStep doc endPos kwK kwT c).state <;> simp [h]
        omega
    · rename_i hge
      omega

/-- On the Zig document `"\a"` the loop reaches position 3 (the closing
quote) after two iterations with the automaton in the escape-tracker
state, and the third iteration hands control back to the loop head without
advancing the cursor: a scan-loop iteration that consumes no character,
refuting the per-iteration strict-advance claim. -/
theorem zig_scan_stall_counterexample :
    (zigRunN c9docZig 4 [] [] 2 (initCtx 0 SCE_ZIG_DEFAULT)).pos = 3
    ∧ (zigRunN c9docZig 4 [] [] 2 (initCtx 0 SCE_ZIG_DEFAULT)).state = SCE_ZIG_ESCAPECHAR
    ∧ (zigStep c9docZig 4 [] []
        (zigRunN c9docZig 4 [] [] 2 (initCtx 0 SCE_ZIG_DEFAULT))).pos = 3 := by
  decide

/-- C9 (amended): for both lexers, from any cursor inside the requested
range that satisfies the escape-tracker invariant, one iteration of the
main scan loop never moves the cursor backwards and never moves it past
the end of the range, and the loop terminates with the cursor exactly at
the end of the range — `2*(endPos - pos) + 1` iterations always suffice,
because an iteration that consumes no character (an escape-tracker
re-dispatch, see the counterexample) is always immediately followed by a
consuming iteration.  The loop therefore consumes the requested range
exactly, but not every iteration advances. -/
theorem scan_loops_terminate_exact
    (doc : List Char) (endPos : Nat) (kwK kwC kwT : List String)
    (cS cZ : LexCtx)
    (hS1 : scalaOuterOk cS = true) (hS2 : cS.pos ≤ endPos)
    (hZ1 : zigOuterOk cZ = true) (hZ2 : cZ.pos ≤ endPos) :
    (cS.pos < endPos →
        cS.pos ≤ (scalaStep doc endPos kwK kwC kwT cS).pos
        ∧ (scalaStep doc endPos kwK kwC kwT cS).pos ≤ endPos)
    ∧ (scalaRunN doc endPos kwK kwC kwT (2 * (endPos - cS.pos) + 1) cS).pos = endPos
    ∧ (cZ.pos < endPos →
        cZ.pos ≤ (zigStep doc endPos kwK kwT cZ).pos
        ∧ (zigStep doc endPos kwK kwT cZ).pos ≤ endPos)
    ∧ (zigRunN doc endPos kwK kwT (2 * (endPos - cZ.pos) + 1) cZ).pos = endPos := by
  refine ⟨fun hlt => ?_, ?_, fun hlt => ?_, ?_⟩
  · obtain ⟨s1, s2, _, _⟩ := scalaStep_main doc endPos kwK kwC kwT cS hS1 hlt
    exact ⟨s1, s2⟩
  · refine scalaRunN_pos_eq doc endPos kwK kwC kwT _ cS hS1 hS2 ?_
    exact Nat.add_le_add_left (by cases h : scalaStallCapable cS.state <;> decide) _
  · obtain ⟨s1, s2, _, _⟩ := zigStep_main doc endPos kwK kwT cZ hZ1 hlt
    exact ⟨s1, s2⟩
  · refine zigRunN_pos_eq doc endPos kwK kwT _ cZ hZ1 hZ2 ?_
    exact Nat.add_le_add_left (by cases h : zigStallCapable cZ.state <;> decide) _

/-- Concrete instance of the amended termination theorem: on the 4-char
Zig escape document both fuelled loops, started at the beginning in the
default state, finish with the cursor exactly at position 4. -/
theorem scan_loops_terminate_exact_witness :
    (scalaRunN c9docZig 4 [] [] [] (2 * (4 - (initCtx 0 SCE_SCALA_DEFAULT).pos) + 1)
        (initCtx 0 SCE_SCALA_DEFAULT)).pos = 4
    ∧ (zigRunN c9docZig 4 [] [] (2 * (4 - (initCtx 0 SCE_ZIG_DEFAULT).pos) + 1)
        (initCtx 0 SCE_ZIG_DEFAULT)).pos = 4 := by
  have h := scan_loops_terminate_exact c9docZig 4 [] [] [] (initCtx 0 SCE_SCALA_DEFAULT)
    (initCtx 0 SCE_ZIG_DEFAULT) (by decide) (by decide) (by decide) (by decide)
  exact ⟨h.2.1, h.2.2.2⟩
